import Mathlib

/-!
# Verification of `cc_yaml.yaml_parser` (cedadev/cc-yaml)

A shallow embedding of `src/cc_yaml/yaml_parser.py`:

* `Value` models the parsed YAML / Python value universe that flows through the
  parser (text, integers, sequences, mappings).  Mappings are modelled as
  insertion-ordered association lists, matching Python `dict` semantics
  (`lookupA` / `containsA` / `updateOne` / `dictUpdate` model `d[k]`, `k in d`,
  `d[k] = v` and `d.update(...)`).
* `YamlParser.validate_field`, `YamlParser.validateCheckEntry` (the loop body
  of `validate_config`), and `YamlParser.validate_config` are the validator.
* `YamlParser.processCheck`, `YamlParser.checksLoop` and
  `YamlParser.get_checker_class` are the suite assembler.  The external
  `importlib.import_module` / `getattr` resolution is abstracted as an
  environment `Env : String → String → Option CheckCls` mapping (module path,
  member name) to a check implementation; the file-loading branch of
  `get_checker_class` (the `isinstance(config, str)` branch) performs I/O and
  is outside the embedding — `get_checker_class` here takes the already-parsed
  configuration value.
* A second, heap-based model (`PyHeap` namespace) gives Python mappings object
  identity so that the frame property "assembly never mutates the input
  configuration" is a real statement about mutation, not a vacuity of pure
  functions.
-/

/-- Insertion-ordered association list with string keys: the model of a Python
`dict`. -/
abbrev PyDict (α : Type) := List (String × α)

namespace YamlParser

/-- Python `d[k]` lookup on a mapping (first matching key; well-formed Python
dicts have distinct keys, so this agrees with the unique binding). -/
def lookupA {α : Type} : PyDict α → String → Option α
  | [], _ => none
  | (k', v) :: d, k => if k = k' then some v else lookupA d k

/-- Python `k in d` on a mapping. -/
def containsA {α : Type} (d : PyDict α) (k : String) : Bool :=
  (lookupA d k).isSome

/-- Python `d[k] = v`: replace the binding of `k` in place if present,
otherwise append a new binding (insertion order, as in CPython dicts). -/
def updateOne {α : Type} (d : PyDict α) (k : String) (v : α) : PyDict α :=
  if containsA d k then d.map (fun p => if p.1 = k then (k, v) else p)
  else d ++ [(k, v)]

/-- Python `base.update(upd)`: fold the bindings of `upd` into `base`. -/
def dictUpdate {α : Type} (base upd : PyDict α) : PyDict α :=
  upd.foldl (fun d p => updateOne d p.1 p.2) base

/-- Keys of a mapping. -/
def keysA {α : Type} (d : PyDict α) : List String := d.map Prod.fst

/-- A Python dict never has duplicate keys; association lists produced by the
YAML parser satisfy this. -/
def WFDict {α : Type} (d : PyDict α) : Prop := (keysA d).Nodup

end YamlParser

/-- The Python/YAML value universe used by the parser: text scalars, integer
scalars, sequences and mappings. -/
inductive Value where
  | str (s : String)
  | int (n : Int)
  | list (elems : List Value)
  | dict (entries : List (String × Value))

mutual

/-- Decidable structural equality on values (Python `==` on the modelled
universe). -/
def Value.decEq : (a b : Value) → Decidable (a = b)
  | .str a, .str b =>
      match String.decEq a b with
      | isTrue h => isTrue (by rw [h])
      | isFalse h => isFalse (fun hc => by cases hc; exact h rfl)
  | .int a, .int b =>
      match Int.decEq a b with
      | isTrue h => isTrue (by rw [h])
      | isFalse h => isFalse (fun hc => by cases hc; exact h rfl)
  | .list a, .list b =>
      match Value.decEqList a b with
      | isTrue h => isTrue (by rw [h])
      | isFalse h => isFalse (fun hc => by cases hc; exact h rfl)
  | .dict a, .dict b =>
      match Value.decEqDict a b with
      | isTrue h => isTrue (by rw [h])
      | isFalse h => isFalse (fun hc => by cases hc; exact h rfl)
  | .str _, .int _ => isFalse (fun h => Value.noConfusion h)
  | .str _, .list _ => isFalse (fun h => Value.noConfusion h)
  | .str _, .dict _ => isFalse (fun h => Value.noConfusion h)
  | .int _, .str _ => isFalse (fun h => Value.noConfusion h)
  | .int _, .list _ => isFalse (fun h => Value.noConfusion h)
  | .int _, .dict _ => isFalse (fun h => Value.noConfusion h)
  | .list _, .str _ => isFalse (fun h => Value.noConfusion h)
  | .list _, .int _ => isFalse (fun h => Value.noConfusion h)
  | .list _, .dict _ => isFalse (fun h => Value.noConfusion h)
  | .dict _, .str _ => isFalse (fun h => Value.noConfusion h)
  | .dict _, .int _ => isFalse (fun h => Value.noConfusion h)
  | .dict _, .list _ => isFalse (fun h => Value.noConfusion h)

/-- Decidable equality on value sequences. -/
def Value.decEqList : (a b : List Value) → Decidable (a = b)
  | [], [] => isTrue rfl
  | [], _ :: _ => isFalse (fun h => List.noConfusion h)
  | _ :: _, [] => isFalse (fun h => List.noConfusion h)
  | x :: xs, y :: ys =>
      match Value.decEq x y, Value.decEqList xs ys with
      | isTrue h1, isTrue h2 => isTrue (by rw [h1, h2])
      | isFalse h1, _ => isFalse (fun hc => by cases hc; exact h1 rfl)
      | _, isFalse h2 => isFalse (fun hc => by cases hc; exact h2 rfl)

/-- Decidable equality on mapping entry lists. -/
def Value.decEqDict : (a b : List (String × Value)) → Decidable (a = b)
  | [], [] => isTrue rfl
  | [], _ :: _ => isFalse (fun h => List.noConfusion h)
  | _ :: _, [] => isFalse (fun h => List.noConfusion h)
  | (k, v) :: xs, (k', v') :: ys =>
      match String.decEq k k', Value.decEq v v', Value.decEqDict xs ys with
      | isTrue h1, isTrue h2, isTrue h3 => isTrue (by rw [h1, h2, h3])
      | isFalse h1, _, _ =>
          isFalse (fun hc => by cases hc; exact h1 rfl)
      | _, isFalse h2, _ =>
          isFalse (fun hc => by cases hc; exact h2 rfl)
      | _, _, isFalse h3 => isFalse (fun hc => by cases hc; exact h3 rfl)

end

instance : DecidableEq Value := Value.decEq

/-- The types named in `validate_config`'s field tables and in
`required_parameters` values: `str`, `list`, `dict`, `int`. -/
inductive PyType where
  | str
  | list
  | dict
  | int
deriving DecidableEq

/-- `val_type.__name__`, used in the `TypeError` message of `validate_field`. -/
def PyType.name : PyType → String
  | .str => "str"
  | .list => "list"
  | .dict => "dict"
  | .int => "int"

/-- Python `isinstance(v, t)` for the types the parser checks against. -/
def isinstance : Value → PyType → Bool
  | .str _, .str => true
  | .int _, .int => true
  | .list _, .list => true
  | .dict _, .dict => true
  | _, _ => false

/-- The exception kinds raised by the parser: `ValueError` (missing key, bad
enum value, empty check list), `TypeError` (wrong type, non-mapping
subscripting, the zero-argument `set.intersection`), `KeyError` (unchecked
`d[k]`), `AttributeError` (attribute access on a value lacking it), and
import/`getattr` failure during check resolution (`ImportError` /
`AttributeError` collapsed into one resolution-failure kind). -/
inductive Err where
  | valueError (msg : String)
  | typeError (msg : String)
  | keyError (key : String)
  | attributeError (msg : String)
  | resolutionError (name : String)
deriving DecidableEq

namespace YamlParser

/-- Does `needle` occur at the head of `hay`? (helper for Python substring
containment). -/
def leadMatch : List Char → List Char → Bool
  | [], _ => true
  | _ :: _, [] => false
  | a :: as, b :: bs => a = b && leadMatch as bs

/-- Python `needle in hay` for strings: substring containment. -/
def strHasSub (needle : List Char) : List Char → Bool
  | [] => needle.isEmpty
  | b :: bs => leadMatch needle (b :: bs) || strHasSub needle bs

/-- Python `k in v` where `k` is a string: key membership for mappings,
element membership for sequences (a non-text element never equals a text
scalar), substring containment for text, `TypeError` otherwise. -/
def pyContainsS (v : Value) (k : String) : Except Err Bool :=
  match v with
  | .dict d => .ok (containsA d k)
  | .list es => .ok (es.contains (Value.str k))
  | .str s => .ok (strHasSub k.toList s.toList)
  | .int _ => .error (.typeError "argument of type 'int' is not iterable")

/-- Python `v[k]` where `k` is a string: mapping lookup (raising `KeyError` on
a missing key), `TypeError` on sequences/text (string indices) and on
non-subscriptable scalars. -/
def getItemS (v : Value) (k : String) : Except Err Value :=
  match v with
  | .dict d =>
      match lookupA d k with
      | some x => .ok x
      | none => .error (.keyError k)
  | .list _ => .error (.typeError "list indices must be integers")
  | .str _ => .error (.typeError "string indices must be integers")
  | .int _ => .error (.typeError "'int' object is not subscriptable")

/-- Python `v.get(k, None)`: only mappings have `.get`. -/
def pyGetOpt (v : Value) (k : String) : Except Err (Option Value) :=
  match v with
  | .dict d => .ok (lookupA d k)
  | _ => .error (.attributeError "get")

mutual

/-- Python `repr(v)` (used by `str`/`format` on containers).  Mirrors CPython
rendering closely enough for the unreachable non-text cases of
`"check_{}".format(...)`. -/
def pyRepr : Value → String
  | .str s => "\x27" ++ s ++ "\x27"
  | .int n => toString n
  | .list es => "[" ++ pyReprList es ++ "]"
  | .dict d => "\x7b" ++ pyReprDict d ++ "\x7d"

/-- Comma-separated reprs of sequence elements. -/
def pyReprList : List Value → String
  | [] => ""
  | [v] => pyRepr v
  | v :: rest => pyRepr v ++ ", " ++ pyReprList rest

/-- Comma-separated reprs of mapping items. -/
def pyReprDict : PyDict Value → String
  | [] => ""
  | [(k, v)] => "\x27" ++ k ++ "\x27: " ++ pyRepr v
  | (k, v) :: rest => "\x27" ++ k ++ "\x27: " ++ pyRepr v ++ ", " ++ pyReprDict rest

end

/-- Python `str(v)` / `"...{}".format(v)`: text scalars verbatim, otherwise
`repr`-style rendering. -/
def pyStr : Value → String
  | .str s => s
  | v => pyRepr v

/-- `YamlParser.validate_field` (yaml_parser.py lines 109-120): raise
`ValueError` if a required key is absent, `TypeError` if a present value has
the wrong type. -/
def validate_field (key : String) (val_type : PyType) (d : Value) (required : Bool) :
    Except Err Unit :=
  match pyContainsS d key with
  | .error e => .error e
  | .ok present =>
      if required && !present then
        .error (.valueError ("Required key \x27" ++ key ++ "\x27 not present"))
      else if present then
        match getItemS d key with
        | .error e => .error e
        | .ok v =>
            if !(isinstance v val_type) then
              .error (.typeError ("Value for field \x27" ++ key ++
                "\x27 is not of type \x27" ++ val_type.name ++ "\x27"))
            else .ok ()
      else .ok ()

/-- The body of the `for check_info in config["checks"]` loop of
`validate_config` (yaml_parser.py lines 95-104): required per-check fields,
the optional `check_level` field, and the `check_level` enumeration check. -/
def validateCheckEntry (check_info : Value) : Except Err Unit :=
  match validate_field "check_id" .str check_info true with
  | .error e => .error e
  | .ok () =>
    match validate_field "parameters" .dict check_info true with
    | .error e => .error e
    | .ok () =>
      match validate_field "check_name" .str check_info true with
      | .error e => .error e
      | .ok () =>
        match validate_field "check_level" .str check_info false with
        | .error e => .error e
        | .ok () =>
          -- allowed_levels = ("HIGH", "MEDIUM", "LOW")
          match pyContainsS check_info "check_level" with
          | .error e => .error e
          | .ok present =>
              if present then
                match getItemS check_info "check_level" with
                | .error e => .error e
                | .ok lv =>
                    if lv = .str "HIGH" ∨ lv = .str "MEDIUM" ∨ lv = .str "LOW" then .ok ()
                    else .error (.valueError "Check level must be one of HIGH, MEDIUM, LOW")
              else .ok ()

/-- Iterate `validateCheckEntry` over the entries of `config["checks"]`. -/
def validateEntries : List Value → Except Err Unit
  | [] => .ok ()
  | e :: rest =>
      match validateCheckEntry e with
      | .error er => .error er
      | .ok () => validateEntries rest

/-- `YamlParser.validate_config` (yaml_parser.py lines 78-107): top-level
required fields (`checks : list`, `suite_name : str`, in the insertion order
of `required_global`), per-entry checks, then the empty-list check. -/
def validate_config (config : Value) : Except Err Unit :=
  match validate_field "checks" .list config true with
  | .error e => .error e
  | .ok () =>
    match validate_field "suite_name" .str config true with
    | .error e => .error e
    | .ok () =>
      match getItemS config "checks" with
      | .error e => .error e
      | .ok checksV =>
          match checksV with
          | .list entries =>
              (match validateEntries entries with
               | .error e => .error e
               | .ok () =>
                  if entries.length = 0 then
                    .error (.valueError "List of checks cannot be empty")
                  else .ok ())
          | _ => .error (.typeError "object is not iterable")

end YamlParser

namespace YamlParser

/-- A check implementation, as resolved by `importlib` + `getattr` (the
"check implementation contract": `defaults`, optional `required_parameters`,
`supported_ds`, and the `do_check` operation of the instance constructed from
(merged parameters, severity level)). -/
structure CheckCls where
  defaults : PyDict Value
  required_parameters : Option (PyDict PyType)
  supported_ds : List Value
  do_check : PyDict Value → Option Value → Value → Except Err Value

/-- The external resolution environment: (module path, member name) ↦ check
implementation.  `none` models `ImportError`/`AttributeError` from
`importlib.import_module` / `getattr`. -/
abbrev Env := String → String → Option CheckCls

/-- A resolved check instance, `check_cls(params, level=level_str)`: it owns
the merged parameters and the severity level, and its `do_check` is the
implementation's. -/
structure CheckInstance where
  cls : CheckCls
  kwargs : PyDict Value
  level : Option Value

/-- The synthesized checker type: name, the generated `check_<id>` methods
(each bound to its own resolved instance — the `class_properties` dict), and
the computed `supported_ds` attribute. -/
structure GeneratedClass where
  name : String
  methods : PyDict CheckInstance
  supported_ds : List Value

/-- Python `name.split(".")` (auxiliary: accumulates the current segment in
reverse). -/
def splitDotsAux : List Char → List Char → List String
  | [], acc => [String.mk acc.reverse]
  | c :: rest, acc =>
      if c = '.' then String.mk acc.reverse :: splitDotsAux rest []
      else splitDotsAux rest (c :: acc)

/-- Python `name.split(".")`. -/
def splitDots (s : String) : List String := splitDotsAux s.toList []

/-- Python `".".join(parts)`. -/
def joinDots : List String → String
  | [] => ""
  | [s] => s
  | s :: rest => s ++ "." ++ joinDots rest

/-- Lines 42-44 of yaml_parser.py: split `check_name` into module path and
member name and resolve it through the environment. -/
def resolveCheck (env : Env) (name : String) : Except Err CheckCls :=
  let parts := splitDots name
  let moduleName := joinDots parts.dropLast
  let clsName := parts.getLastD ""
  match env moduleName clsName with
  | some c => .ok c
  | none => .error (.resolutionError name)

/-- The `for key, expected_type in check_cls.required_parameters.items()` loop
(lines 52-53): `validate_field` on the merged parameter mapping, each key
required. -/
def validateRequiredParams : PyDict PyType → PyDict Value → Except Err Unit
  | [], _ => .ok ()
  | (key, expected_type) :: rest, params =>
      match validate_field key expected_type (.dict params) true with
      | .error er => .error er
      | .ok () => validateRequiredParams rest params

/-- Lines 54-56: a `ValueError`/`TypeError` from required-parameter validation
is re-raised with the same class and a wrapped message
(`"Invalid parameters in YAML file: {}".format(ex)`). -/
def rewrapParamErr : Err → Err
  | .valueError m => .valueError ("Invalid parameters in YAML file: " ++ m)
  | .typeError m => .typeError ("Invalid parameters in YAML file: " ++ m)
  | e => e

/-- Python `set(l)`: deduplicate, keeping one representative per equality
class (membership is the only property observed of the result). -/
def pySet : List Value → List Value
  | [] => []
  | x :: xs => if x ∈ xs then pySet xs else x :: pySet xs

/-- `set.intersection(*sets)` (line 74): fails on an empty argument list
(`TypeError`), otherwise intersects all the sets; `list(...)` materializes the
result. -/
def interAll : List (List Value) → Except Err (List Value)
  | [] => .error (.typeError "descriptor 'intersection' of 'set' object needs an argument")
  | s :: rest => .ok (rest.foldl (fun acc s2 => acc.filter (fun x => x ∈ s2)) s)

/-- The body of the `for check_info in config["checks"]` loop of
`get_checker_class` (lines 38-71): derive the method name, resolve the
implementation, merge defaults with the entry's parameters, validate required
parameters, build the check instance, and contribute
`set(check_cls.supported_ds)`. -/
def processCheck (env : Env) (check_info : Value) :
    Except Err (String × CheckInstance × List Value) :=
  -- method_name = "check_{}".format(check_info["check_id"])
  match getItemS check_info "check_id" with
  | .error e => .error e
  | .ok idV =>
    let method_name := "check_" ++ pyStr idV
    -- parts = check_info["check_name"].split(".")  (only text has .split)
    match getItemS check_info "check_name" with
    | .error e => .error e
    | .ok nameV =>
      match nameV with
      | .str nameS =>
        (match resolveCheck env nameS with
         | .error e => .error e
         | .ok check_cls =>
           -- params = {}; params.update(check_cls.defaults);
           -- params.update(check_info["parameters"])
           match getItemS check_info "parameters" with
           | .error e => .error e
           | .ok pv =>
             match pv with
             | .dict pEntries =>
               (let params := dictUpdate (dictUpdate [] check_cls.defaults) pEntries
                -- if hasattr(check_cls, "required_parameters"): validate, rewrap
                match (match check_cls.required_parameters with
                       | some reqs =>
                           (match validateRequiredParams reqs params with
                            | .error ex => Except.error (rewrapParamErr ex)
                            | .ok () => Except.ok ())
                       | none => Except.ok ()) with
                | .error e => .error e
                | .ok () =>
                  -- level_str = check_info.get("check_level", None)
                  match pyGetOpt check_info "check_level" with
                  | .error e => .error e
                  | .ok level =>
                      -- check_instance = check_cls(params, level=level_str); the
                      -- generated method binds this specific instance (captured
                      -- via the default argument)
                      .ok (method_name, ⟨check_cls, params, level⟩,
                        pySet check_cls.supported_ds))
             | _ => .error (.typeError "cannot convert to a mapping"))
      | _ => .error (.attributeError "split")

/-- The `for` loop of `get_checker_class`, threading the `class_properties`
dict and the `supported_ds_sets` list. -/
def checksLoop (env : Env) : List Value → PyDict CheckInstance → List (List Value) →
    Except Err (PyDict CheckInstance × List (List Value))
  | [], props, sets => .ok (props, sets)
  | e :: rest, props, sets =>
      match processCheck env e with
      | .error er => .error er
      | .ok (method_name, inst, ds) =>
          checksLoop env rest (updateOne props method_name inst) (sets ++ [ds])

/-- `YamlParser.get_checker_class` (lines 13-76) on an already-parsed
configuration value: validate, process every check entry, intersect the
collected `supported_ds` sets, and synthesize the checker type named
`config["suite_name"]`.  (The `isinstance(config, str)` file-loading branch
performs I/O and is outside the embedding.) -/
def get_checker_class (env : Env) (config : Value) : Except Err GeneratedClass :=
  match validate_config config with
  | .error e => .error e
  | .ok () =>
    match getItemS config "checks" with
    | .error e => .error e
    | .ok checksV =>
        -- for check_info in config["checks"]
        match checksV with
        | .list entries =>
            (match checksLoop env entries [] [] with
             | .error e => .error e
             | .ok (class_properties, supported_ds_sets) =>
                -- supported by ALL checks: set.intersection(*supported_ds_sets)
                match interAll supported_ds_sets with
                | .error e => .error e
                | .ok supported_ds =>
                    -- type(config["suite_name"], (BaseCheck,), class_properties)
                    match getItemS config "suite_name" with
                    | .error e => .error e
                    | .ok nameV => .ok ⟨pyStr nameV, class_properties, supported_ds⟩)
        | _ => .error (.typeError "object is not iterable")

/-- Invoking the generated method named `mname` on the synthesized type: the
method `inner(self, ds, c=check_instance)` returns `c.do_check(ds)` for the
instance `c` bound at definition time.  `none` means no such method exists. -/
def callMethod (g : GeneratedClass) (mname : String) (ds : Value) :
    Option (Except Err Value) :=
  (lookupA g.methods mname).map (fun inst => inst.cls.do_check inst.kwargs inst.level ds)

end YamlParser

/-!
## Heap model

`validate_config` / `get_checker_class` again, but with Python mappings and
sequences given object identity: containers live in a heap (`Obj` addressed by
`Nat`), values are scalars or references, and `dict.update` is a store to the
heap.  This is the model in which "the input configuration is never mutated"
is a real frame property: the only heap writes performed by assembly target
the freshly allocated per-entry `params` mapping (`params = {}` on line 47 of
yaml_parser.py), never an address that existed on entry.
-/

namespace PyHeap

open YamlParser

/-- A Python value with object identity: immediate scalars, or a reference to
a container object in the heap. -/
inductive HValue where
  | str (s : String)
  | int (n : Int)
  | ref (a : Nat)
deriving DecidableEq

/-- A container object: a mapping or a sequence. -/
inductive Obj where
  | dict (entries : PyDict HValue)
  | list (elems : List HValue)
deriving DecidableEq

/-- The object heap; an address is an index, allocation appends. -/
abbrev Heap := List Obj

/-- Python `isinstance(v, t)` in the heap model (containers are classified by
the object their reference points to). -/
def isinstanceH (h : Heap) (v : HValue) (t : PyType) : Bool :=
  match v, t with
  | .str _, .str => true
  | .int _, .int => true
  | .ref a, .list => (match h[a]? with | some (.list _) => true | _ => false)
  | .ref a, .dict => (match h[a]? with | some (.dict _) => true | _ => false)
  | _, _ => false

/-- Python `k in v` for a string `k` (read-only).  A dangling reference is a
modelling artifact that cannot arise from a parsed configuration. -/
def pyContainsH (h : Heap) (v : HValue) (k : String) : Except Err Bool :=
  match v with
  | .ref a =>
      match h[a]? with
      | some (.dict d) => .ok (containsA d k)
      | some (.list es) => .ok (es.contains (HValue.str k))
      | none => .error (.attributeError "dangling reference")
  | .str s => .ok (strHasSub k.toList s.toList)
  | .int _ => .error (.typeError "argument of type 'int' is not iterable")

/-- Python `v[k]` for a string `k` (read-only). -/
def getItemH (h : Heap) (v : HValue) (k : String) : Except Err HValue :=
  match v with
  | .ref a =>
      match h[a]? with
      | some (.dict d) =>
          match lookupA d k with
          | some x => .ok x
          | none => .error (.keyError k)
      | some (.list _) => .error (.typeError "list indices must be integers")
      | none => .error (.attributeError "dangling reference")
  | .str _ => .error (.typeError "string indices must be integers")
  | .int _ => .error (.typeError "'int' object is not subscriptable")

/-- Python `v.get(k, None)` (read-only; only mappings have `.get`). -/
def pyGetH (h : Heap) (v : HValue) (k : String) : Except Err (Option HValue) :=
  match v with
  | .ref a =>
      match h[a]? with
      | some (.dict d) => .ok (lookupA d k)
      | _ => .error (.attributeError "get")
  | _ => .error (.attributeError "get")

/-- Comma-join (helper for container rendering). -/
def joinComma : List String → String
  | [] => ""
  | [s] => s
  | s :: rest => s ++ ", " ++ joinComma rest

/-- `repr` in the heap model; the fuel bounds reference-chasing depth (a parsed
configuration is acyclic, so `h.length` fuel always suffices). -/
def pyReprH (h : Heap) : Nat → HValue → String
  | _, .str s => "\x27" ++ s ++ "\x27"
  | _, .int n => toString n
  | 0, .ref _ => "..."
  | fuel + 1, .ref a =>
      match h[a]? with
      | some (.list es) => "[" ++ joinComma (es.map (pyReprH h fuel)) ++ "]"
      | some (.dict d) =>
          "\x7b" ++
            joinComma (d.map (fun p => "\x27" ++ p.1 ++ "\x27: " ++ pyReprH h fuel p.2)) ++
            "\x7d"
      | none => "<dangling>"

/-- Python `str(v)` / `"...{}".format(v)` in the heap model. -/
def pyStrH (h : Heap) (v : HValue) : String :=
  match v with
  | .str s => s
  | v => pyReprH h h.length v

/-- `validate_field` in the heap model (read-only: its source performs no
assignment). -/
def validateFieldH (h : Heap) (key : String) (val_type : PyType) (d : HValue)
    (required : Bool) : Except Err Unit :=
  match pyContainsH h d key with
  | .error e => .error e
  | .ok present =>
      if required && !present then
        .error (.valueError ("Required key \x27" ++ key ++ "\x27 not present"))
      else if present then
        match getItemH h d key with
        | .error e => .error e
        | .ok v =>
            if !(isinstanceH h v val_type) then
              .error (.typeError ("Value for field \x27" ++ key ++
                "\x27 is not of type \x27" ++ val_type.name ++ "\x27"))
            else .ok ()
      else .ok ()

/-- The per-entry loop body of `validate_config` in the heap model. -/
def validateCheckEntryH (h : Heap) (check_info : HValue) : Except Err Unit :=
  match validateFieldH h "check_id" .str check_info true with
  | .error e => .error e
  | .ok () =>
    match validateFieldH h "parameters" .dict check_info true with
    | .error e => .error e
    | .ok () =>
      match validateFieldH h "check_name" .str check_info true with
      | .error e => .error e
      | .ok () =>
        match validateFieldH h "check_level" .str check_info false with
        | .error e => .error e
        | .ok () =>
          match pyContainsH h check_info "check_level" with
          | .error e => .error e
          | .ok present =>
              if present then
                match getItemH h check_info "check_level" with
                | .error e => .error e
                | .ok lv =>
                    if lv = .str "HIGH" ∨ lv = .str "MEDIUM" ∨ lv = .str "LOW" then .ok ()
                    else
                      .error (.valueError "Check level must be one of HIGH, MEDIUM, LOW")
              else .ok ()

/-- Iterating `validateCheckEntryH` over the check entries. -/
def validateEntriesH (h : Heap) : List HValue → Except Err Unit
  | [] => .ok ()
  | e :: rest =>
      match validateCheckEntryH h e with
      | .error er => .error er
      | .ok () => validateEntriesH h rest

/-- Python `for x in v` for the heap model: the element list a `for` loop
visits (sequence elements; a mapping yields its keys; text yields its
characters). -/
def iterListH (h : Heap) (v : HValue) : Except Err (List HValue) :=
  match v with
  | .ref a =>
      match h[a]? with
      | some (.list es) => .ok es
      | some (.dict d) => .ok ((keysA d).map HValue.str)
      | none => .error (.attributeError "dangling reference")
  | .str s => .ok (s.toList.map (fun c => HValue.str (String.mk [c])))
  | .int _ => .error (.typeError "'int' object is not iterable")

/-- `validate_config` in the heap model (read-only). -/
def validateConfigH (h : Heap) (config : HValue) : Except Err Unit :=
  match validateFieldH h "checks" .list config true with
  | .error e => .error e
  | .ok () =>
    match validateFieldH h "suite_name" .str config true with
    | .error e => .error e
    | .ok () =>
      match getItemH h config "checks" with
      | .error e => .error e
      | .ok checksV =>
          match iterListH h checksV with
          | .error e => .error e
          | .ok entries =>
              match validateEntriesH h entries with
              | .error e => .error e
              | .ok () =>
                  if entries.length = 0 then
                    .error (.valueError "List of checks cannot be empty")
                  else .ok ()

/-- A check implementation in the heap model.  `defaults` and `supported_ds`
are the external implementation's own class attributes (they are only ever
read); the generated methods' runtime behavior is irrelevant to the frame
property and is not carried. -/
structure CheckClsH where
  defaults : PyDict HValue
  required_parameters : Option (PyDict PyType)
  supported_ds : List HValue

/-- Resolution environment in the heap model. -/
abbrev EnvH := String → String → Option CheckClsH

/-- A resolved check instance: it holds the address of its merged-parameters
mapping (`check_cls(params, level=level_str)` stores the `params` reference). -/
structure InstanceH where
  cls : CheckClsH
  kwargsAddr : Nat
  level : Option HValue

/-- The synthesized checker type in the heap model. -/
structure GeneratedH where
  name : String
  methods : PyDict InstanceH
  supported_ds : List HValue

/-- `resolveCheck` in the heap model. -/
def resolveCheckH (env : EnvH) (name : String) : Except Err CheckClsH :=
  let parts := splitDots name
  let moduleName := joinDots parts.dropLast
  let clsName := parts.getLastD ""
  match env moduleName clsName with
  | some c => .ok c
  | none => .error (.resolutionError name)

/-- Sequencing of two heap-threading statements: on failure the statement's
final heap is kept and the continuation is skipped (a raised exception
propagates). -/
def hbind {α β : Type} (x : Except Err α × Heap)
    (f : α → Heap → Except Err β × Heap) : Except Err β × Heap :=
  match x with
  | (.error er, h) => (.error er, h)
  | (.ok a, h) => f a h

/-- A read-only statement: it computes from the heap and leaves it unchanged. -/
def hread {α : Type} (f : Heap → Except Err α) (h : Heap) :
    Except Err α × Heap := (f h, h)

/-- `params = {}` (line 47): allocate a fresh empty mapping, returning its
address. -/
def hallocDict (h : Heap) : Except Err Nat × Heap :=
  (.ok h.length, h ++ [Obj.dict []])

/-- Python `params.update(upd)` where `params` is the mapping at address `a`:
the one heap write the assembler performs. -/
def dictUpdateAt (h : Heap) (a : Nat) (upd : PyDict HValue) : Except Err Unit × Heap :=
  match h[a]? with
  | some (.dict cur) => (.ok (), h.set a (.dict (dictUpdate cur upd)))
  | some (.list _) => (.error (.attributeError "update"), h)
  | none => (.error (.attributeError "dangling reference"), h)

/-- View a value as the entry list of a mapping (what `dict.update` requires
of its argument). -/
def derefDictH (h : Heap) (v : HValue) : Except Err (PyDict HValue) :=
  match v with
  | .ref a =>
      match h[a]? with
      | some (.dict l) => .ok l
      | some (.list _) => .error (.typeError "cannot convert to a mapping")
      | none => .error (.attributeError "dangling reference")
  | _ => .error (.typeError "cannot convert to a mapping")

/-- Required-parameter validation against the merged mapping at `pAddr`
(read-only). -/
def validateRequiredParamsH (h : Heap) : PyDict PyType → Nat → Except Err Unit
  | [], _ => .ok ()
  | (key, expected_type) :: rest, pAddr =>
      match validateFieldH h key expected_type (.ref pAddr) true with
      | .error er => .error er
      | .ok () => validateRequiredParamsH h rest pAddr

/-- Lines 50-56: if the implementation declares `required_parameters`,
validate the merged mapping at `pAddr`, rewrapping failures (read-only). -/
def reqParamsCheckH (cls : CheckClsH) (pAddr : Nat) (h : Heap) : Except Err Unit :=
  match cls.required_parameters with
  | some reqs =>
      match validateRequiredParamsH h reqs pAddr with
      | .error ex => .error (rewrapParamErr ex)
      | .ok () => .ok ()
  | none => .ok ()

/-- Python `set(l)` on heap values (structural equality; the dataset-type
markers are scalars in practice). -/
def pySetH : List HValue → List HValue
  | [] => []
  | x :: xs => if x ∈ xs then pySetH xs else x :: pySetH xs

/-- `set.intersection(*sets)` on heap values. -/
def interAllH : List (List HValue) → Except Err (List HValue)
  | [] => .error (.typeError "descriptor 'intersection' of 'set' object needs an argument")
  | s :: rest => .ok (rest.foldl (fun acc s2 => acc.filter (fun x => x ∈ s2)) s)

/-- Lines 47-49: `params = {}` (fresh allocation),
`params.update(check_cls.defaults)`, `params.update(check_info["parameters"])`
— the only heap writes of the assembly, both targeting the fresh address,
which is returned. -/
def buildParamsH (e : HValue) (cls : CheckClsH) (h : Heap) :
    Except Err Nat × Heap :=
  hbind (hallocDict h) fun p h =>
  hbind (dictUpdateAt h p cls.defaults) fun _ h =>
  hbind (hread (fun h => getItemH h e "parameters") h) fun pv h =>
  hbind (hread (fun h => derefDictH h pv) h) fun pEntries h =>
  hbind (dictUpdateAt h p pEntries) fun _ h =>
  (.ok p, h)

/-- The loop body of `get_checker_class` in the heap model (lines 38-71),
threading the heap through each statement. -/
def processCheckH (env : EnvH) (h : Heap) (e : HValue) :
    Except Err (String × InstanceH × List HValue) × Heap :=
  -- method_name = "check_{}".format(check_info["check_id"])
  hbind (hread (fun h => getItemH h e "check_id") h) fun idV h =>
  hbind (hread (fun h => Except.ok ("check_" ++ pyStrH h idV)) h) fun method_name h =>
  -- parts = check_info["check_name"].split("."); resolve
  hbind (hread (fun h => getItemH h e "check_name") h) fun nameV h =>
  hbind (hread (fun _ => (match nameV with
    | HValue.str s => Except.ok s
    | _ => Except.error (Err.attributeError "split"))) h) fun nameS h =>
  hbind (hread (fun _ => resolveCheckH env nameS) h) fun cls h =>
  -- params = {}; params.update(...); params.update(...)
  hbind (buildParamsH e cls h) fun p h =>
  -- required-parameter validation (reads the merged mapping)
  hbind (hread (reqParamsCheckH cls p) h) fun _ h =>
  -- level_str = check_info.get("check_level", None)
  hbind (hread (fun h => pyGetH h e "check_level") h) fun level h =>
  -- check_instance = check_cls(params, level=level_str): the instance stores
  -- the params ADDRESS; the generated method binds this instance
  (.ok (method_name, ⟨cls, p, level⟩, pySetH cls.supported_ds), h)

/-- The `for check_info in config["checks"]` loop of `get_checker_class` in
the heap model. -/
def checksLoopH (env : EnvH) (h : Heap) : List HValue → PyDict InstanceH →
    List (List HValue) → Except Err (PyDict InstanceH × List (List HValue)) × Heap
  | [], props, sets => (.ok (props, sets), h)
  | e :: rest, props, sets =>
      hbind (processCheckH env h e) fun out h =>
        checksLoopH env h rest (updateOne props out.1 out.2.1) (sets ++ [out.2.2])

/-- `get_checker_class` in the heap model: the pair is (result, final heap),
so the final heap is observable on the failure paths too. -/
def getCheckerClassH (env : EnvH) (h : Heap) (config : HValue) :
    Except Err GeneratedH × Heap :=
  hbind (hread (fun h => validateConfigH h config) h) fun _ h =>
  hbind (hread (fun h => getItemH h config "checks") h) fun checksV h =>
  hbind (hread (fun h => iterListH h checksV) h) fun entries h =>
  hbind (checksLoopH env h entries [] []) fun pr h =>
  hbind (hread (fun _ => interAllH pr.2) h) fun supported_ds h =>
  hbind (hread (fun h => getItemH h config "suite_name") h) fun nameV h =>
  (.ok ⟨pyStrH h nameV, pr.1, supported_ds⟩, h)

/-- `h₁` preserves every object that existed in `h₀`: the heap can only have
grown (fresh allocations) and every pre-existing address holds exactly the
object it held before. -/
def HeapExt (h₀ h₁ : Heap) : Prop :=
  h₀.length ≤ h₁.length ∧ ∀ a, a < h₀.length → h₁[a]? = h₀[a]?

/-- `DefaultParamsTestCheckClass` (tests.py) in the heap model. -/
def DefaultParamsTestCheckClassH : CheckClsH :=
  ⟨[("one", .str "hello")], some [("one", .str)], []⟩

/-- The test-module resolution environment in the heap model. -/
def testsEnvH : EnvH := fun moduleName clsName =>
  if moduleName = "cc_yaml.tests" then
    if clsName = "DefaultParamsTestCheckClass" then some DefaultParamsTestCheckClassH
    else none
  else none

/-- The `test_default_parameters` configuration laid out in a heap: address 0
is the configuration mapping, 1 the `checks` sequence, 2 the check entry, 3
the entry's (empty) `parameters` mapping. -/
def heapDefaults : Heap :=
  [.dict [("suite_name", .str "test_suite"), ("checks", .ref 1)],
   .list [.ref 2],
   .dict [("check_id", .str "one"), ("parameters", .ref 3),
     ("check_name", .str "cc_yaml.tests.DefaultParamsTestCheckClass")],
   .dict []]

end PyHeap

/-!
## Concrete check implementations and configurations

The check classes below are translated from `src/cc_yaml/tests.py`; they are
the concrete inputs on which the claims are exercised.  Attributes these
classes inherit from the external `checklib.register.ParameterisableCheckBase`
base (its `defaults`, `supported_ds` and `do_check`, where the test class does
not override them) are outside the repository; they are modelled by neutral
values, and no property proved here depends on them.
-/

namespace YamlParser

/-- `SupportDsTestCheckClass1` (tests.py): `supported_ds = [1, 2, 3]`. -/
def SupportDsTestCheckClass1 : CheckCls :=
  ⟨[], none, [.int 1, .int 2, .int 3], fun _ _ _ => .ok (.int 0)⟩

/-- `SupportDsTestCheckClass2` (tests.py): `supported_ds = [2, 3, 4]`. -/
def SupportDsTestCheckClass2 : CheckCls :=
  ⟨[], none, [.int 2, .int 3, .int 4], fun _ _ _ => .ok (.int 0)⟩

/-- A check implementation declaring an empty `supported_ds` (the
"empty-set contribution" edge case of the specification). -/
def EmptyDsCheckClass : CheckCls :=
  ⟨[], none, [], fun _ _ _ => .ok (.int 0)⟩

/-- `DefaultParamsTestCheckClass` (tests.py): `defaults = {"one": "hello"}`,
`required_parameters = {"one": str}`, and `do_check` returns
`self.kwargs["one"]`. -/
def DefaultParamsTestCheckClass : CheckCls :=
  ⟨[("one", .str "hello")], some [("one", .str)], [],
    fun kwargs _ _ =>
      match lookupA kwargs "one" with
      | some v => .ok v
      | none => .error (.keyError "one")⟩

/-- The resolution environment of the test module: what
`importlib.import_module("cc_yaml.tests")` + `getattr` resolves. -/
def testsEnv : Env := fun moduleName clsName =>
  if moduleName = "cc_yaml.tests" then
    if clsName = "SupportDsTestCheckClass1" then some SupportDsTestCheckClass1
    else if clsName = "SupportDsTestCheckClass2" then some SupportDsTestCheckClass2
    else if clsName = "EmptyDsCheckClass" then some EmptyDsCheckClass
    else if clsName = "DefaultParamsTestCheckClass" then some DefaultParamsTestCheckClass
    else none
  else none

/-- The minimal valid check entry of `test_missing_keys` (tests.py). -/
def validEntryBlah : PyDict Value :=
  [("check_id", .str "one"), ("parameters", .dict []), ("check_name", .str "blah")]

/-- The minimal valid configuration of `test_missing_keys` (tests.py). -/
def validConfigBlah : PyDict Value :=
  [("suite_name", .str "hello"), ("checks", .list [.dict validEntryBlah])]

/-- A configuration whose two top-level fields are present and correctly
typed, whose `checks` list is non-empty, but whose single check entry is an
empty mapping. -/
def configEntryNoFields : PyDict Value :=
  [("suite_name", .str "hello"), ("checks", .list [.dict []])]

/-- A check entry with a wrong-typed `parameters` value and a missing
`check_id`. -/
def entryWrongParamNoId : PyDict Value := [("parameters", .int 0)]

/-- A check entry whose `check_level` is text outside the enumeration while
`check_id` is wrong-typed. -/
def entryBadLevelBadId : PyDict Value :=
  [("check_id", .int 5), ("parameters", .dict []), ("check_name", .str "blah"),
   ("check_level", .str "BANANA")]

/-- The check entries of the `test_supported_ds` configuration (tests.py),
with distinct check ids. -/
def entriesSupportedDs : List Value :=
  [.dict [("check_id", .str "one"), ("parameters", .dict []),
     ("check_name", .str "cc_yaml.tests.SupportDsTestCheckClass1")],
   .dict [("check_id", .str "two"), ("parameters", .dict []),
     ("check_name", .str "cc_yaml.tests.SupportDsTestCheckClass2")]]

/-- The `test_supported_ds` configuration (tests.py), with distinct check ids. -/
def cfgSupportedDs : Value :=
  .dict [("suite_name", .str "test_suite"), ("checks", .list entriesSupportedDs)]

/-- Check entries whose second check declares an empty `supported_ds`. -/
def entriesEmptyDs : List Value :=
  [.dict [("check_id", .str "one"), ("parameters", .dict []),
     ("check_name", .str "cc_yaml.tests.SupportDsTestCheckClass1")],
   .dict [("check_id", .str "two"), ("parameters", .dict []),
     ("check_name", .str "cc_yaml.tests.EmptyDsCheckClass")]]

/-- A configuration whose second check declares an empty `supported_ds`. -/
def cfgEmptyDs : Value :=
  .dict [("suite_name", .str "test_suite"), ("checks", .list entriesEmptyDs)]

/-- The check entry of the `test_default_parameters` configuration (tests.py). -/
def entriesDefaults : List Value :=
  [.dict [("check_id", .str "one"), ("parameters", .dict []),
     ("check_name", .str "cc_yaml.tests.DefaultParamsTestCheckClass")]]

/-- The `test_default_parameters` configuration (tests.py). -/
def cfgDefaults : Value :=
  .dict [("suite_name", .str "test_suite"), ("checks", .list entriesDefaults)]

/-- The method table the loop builds for `cfgSupportedDs` (each generated
method bound to its own resolved instance with empty merged parameters). -/
def propsSupportedDs : PyDict CheckInstance :=
  [("check_one", ⟨SupportDsTestCheckClass1, [], none⟩),
   ("check_two", ⟨SupportDsTestCheckClass2, [], none⟩)]

/-- The checker type generated from `cfgSupportedDs` (extracted; assembly
succeeds, as proved below). -/
def genSupportedDs : GeneratedClass :=
  match get_checker_class testsEnv cfgSupportedDs with
  | .ok g => g
  | .error _ => ⟨"", [], []⟩

/-- The checker type generated from `cfgEmptyDs`. -/
def genEmptyDs : GeneratedClass :=
  match get_checker_class testsEnv cfgEmptyDs with
  | .ok g => g
  | .error _ => ⟨"", [], []⟩

/-- The checker type generated from `cfgDefaults`. -/
def genDefaults : GeneratedClass :=
  match get_checker_class testsEnv cfgDefaults with
  | .ok g => g
  | .error _ => ⟨"", [], []⟩

/-- A check entry that carries every required field, each with the declared
type, and whose optional `check_level`, when present, is a valid level: the
shape on which `validate_config`'s per-entry pass succeeds. -/
def EntryWF (e : Value) : Prop :=
  ∃ l, e = .dict l ∧
    (∃ s, lookupA l "check_id" = some (.str s)) ∧
    (∃ p, lookupA l "parameters" = some (.dict p)) ∧
    (∃ s, lookupA l "check_name" = some (.str s)) ∧
    (∀ v, lookupA l "check_level" = some v →
      v = .str "HIGH" ∨ v = .str "MEDIUM" ∨ v = .str "LOW")

end YamlParser

/-!
## Mapping lemmas
-/

namespace YamlParser

theorem except_bind_ok {α β : Type} (x : α) (f : α → Except Err β) :
    (Except.ok x >>= f) = f x := rfl

theorem except_bind_err {α β : Type} (e : Err) (f : α → Except Err β) :
    ((Except.error e : Except Err α) >>= f) = .error e := rfl

theorem lookupA_eq_none_iff {α : Type} (d : PyDict α) (k : String) :
    lookupA d k = none ↔ k ∉ keysA d := by
  induction d with
  | nil => simp [lookupA, keysA]
  | cons p rest ih =>
      obtain ⟨k', v⟩ := p
      by_cases hk : k = k'
      · subst hk; simp [lookupA, keysA]
      · simp [lookupA, keysA, hk, ih]

theorem lookupA_append {α : Type} (d1 d2 : PyDict α) (k : String) :
    lookupA (d1 ++ d2) k = (lookupA d1 k).orElse (fun _ => lookupA d2 k) := by
  induction d1 with
  | nil => simp [lookupA]
  | cons p rest ih =>
      obtain ⟨k', v⟩ := p
      by_cases hk : k = k'
      · simp [lookupA, hk]
      · simp [lookupA, hk, ih]

theorem lookupA_map_replace {α : Type} (d : PyDict α) (k k' : String) (v : α) :
    lookupA (d.map (fun p => if p.1 = k then (k, v) else p)) k' =
      (lookupA d k').map (fun w => if k' = k then v else w) := by
  induction d with
  | nil => simp [lookupA]
  | cons p tail ih =>
      obtain ⟨ka, va⟩ := p
      simp only [List.map_cons]
      by_cases hka : ka = k
      · rw [if_pos (show ((ka, va) : String × α).1 = k from hka)]
        subst hka
        by_cases hk' : k' = ka
        · subst hk'; simp [lookupA]
        · simp [lookupA, hk', ih]
      · rw [if_neg (show ¬((ka, va) : String × α).1 = k from hka)]
        by_cases hk' : k' = ka
        · subst hk'
          have hne : k' ≠ k := hka
          simp [lookupA, hne]
        · simp [lookupA, hk', ih]

theorem lookupA_updateOne_self {α : Type} (d : PyDict α) (k : String) (v : α) :
    lookupA (updateOne d k v) k = some v := by
  unfold updateOne
  by_cases hc : containsA d k
  · simp only [hc, if_true, lookupA_map_replace]
    have : (lookupA d k).isSome := hc
    cases h : lookupA d k with
    | none => rw [h] at this; simp at this
    | some w => simp
  · simp only [hc, if_false]
    have hnone : lookupA d k = none := by
      cases h : lookupA d k with
      | none => rfl
      | some x => exact absurd (by simp [containsA, h]) hc
    simp [lookupA_append, hnone, lookupA]

theorem lookupA_updateOne_ne {α : Type} (d : PyDict α) (k k' : String) (v : α)
    (h : k' ≠ k) : lookupA (updateOne d k v) k' = lookupA d k' := by
  unfold updateOne
  by_cases hc : containsA d k
  · simp only [hc, if_true, lookupA_map_replace, h, if_false]
    cases lookupA d k' <;> simp
  · simp [hc, lookupA_append, lookupA, h]

theorem containsA_eq_isSome {α : Type} (d : PyDict α) (k : String) :
    containsA d k = (lookupA d k).isSome := rfl

theorem lookupA_dictUpdate {α : Type} (base upd : PyDict α) (k : String)
    (h : WFDict upd) :
    lookupA (dictUpdate base upd) k =
      (lookupA upd k).orElse (fun _ => lookupA base k) := by
  induction upd generalizing base with
  | nil => simp [dictUpdate, lookupA]
  | cons p rest ih =>
      obtain ⟨a, v⟩ := p
      have hnodup : (keysA rest).Nodup ∧ a ∉ keysA rest := by
        have := h
        simp only [WFDict, keysA, List.map_cons, List.nodup_cons] at this
        exact ⟨this.2, this.1⟩
      have hstep : dictUpdate base ((a, v) :: rest) = dictUpdate (updateOne base a v) rest := by
        simp [dictUpdate, List.foldl_cons]
      rw [hstep, ih (updateOne base a v) hnodup.1]
      by_cases hk : k = a
      · subst hk
        have hrest : lookupA rest k = none := (lookupA_eq_none_iff rest k).mpr hnodup.2
        simp [lookupA, hrest, lookupA_updateOne_self]
      · simp [lookupA, hk, lookupA_updateOne_ne base a k v hk]

/-- The merged-parameters computation of lines 47-49:
`params = {}; params.update(defaults); params.update(entry)`. -/
theorem lookupA_mergedParams (defaults entry : PyDict Value) (k : String)
    (hd : WFDict defaults) (he : WFDict entry) :
    lookupA (dictUpdate (dictUpdate [] defaults) entry) k =
      (lookupA entry k).orElse (fun _ => lookupA defaults k) := by
  rw [lookupA_dictUpdate _ _ _ he, lookupA_dictUpdate _ _ _ hd]
  cases lookupA entry k <;> cases lookupA defaults k <;> simp [lookupA]

/-! ### `validate_field` characterizations on mappings -/

theorem validate_field_missing (l : PyDict Value) (key : String) (ty : PyType)
    (h : lookupA l key = none) :
    validate_field key ty (.dict l) true =
      .error (.valueError ("Required key \x27" ++ key ++ "\x27 not present")) := by
  simp [validate_field, pyContainsS, containsA, h]

theorem validate_field_missing_opt (l : PyDict Value) (key : String) (ty : PyType)
    (h : lookupA l key = none) :
    validate_field key ty (.dict l) false = .ok () := by
  simp [validate_field, pyContainsS, containsA, h]

theorem validate_field_some (l : PyDict Value) (key : String) (ty : PyType)
    (req : Bool) (v : Value) (h : lookupA l key = some v) :
    validate_field key ty (.dict l) req =
      if isinstance v ty then .ok ()
      else .error (.typeError ("Value for field \x27" ++ key ++
        "\x27 is not of type \x27" ++ ty.name ++ "\x27")) := by
  simp only [validate_field, pyContainsS, containsA, h, Option.isSome_some, Bool.not_true,
    Bool.and_false, Bool.false_eq_true, if_false, if_true, getItemS]
  cases hi : isinstance v ty <;> simp [hi]

/-! ### Set and intersection lemmas -/

theorem mem_pySet (l : List Value) (x : Value) : x ∈ pySet l ↔ x ∈ l := by
  induction l with
  | nil => simp [pySet]
  | cons a rest ih =>
      by_cases h : a ∈ rest
      · simp only [pySet, h, if_true, List.mem_cons]
        rw [ih]
        constructor
        · exact fun hx => Or.inr hx
        · rintro (rfl | hx)
          · exact h
          · exact hx
      · simp [pySet, h, ih]

theorem mem_foldl_filter (sets : List (List Value)) (s0 : List Value) (x : Value) :
    x ∈ sets.foldl (fun acc s2 => acc.filter (fun y => y ∈ s2)) s0 ↔
      x ∈ s0 ∧ ∀ s ∈ sets, x ∈ s := by
  induction sets generalizing s0 with
  | nil => simp
  | cons t rest ih =>
      simp only [List.foldl_cons]
      rw [ih]
      simp only [List.mem_filter, decide_eq_true_eq, List.mem_cons]
      constructor
      · rintro ⟨⟨hx, ht⟩, hrest⟩
        refine ⟨hx, ?_⟩
        rintro s (rfl | hs)
        · exact ht
        · exact hrest s hs
      · rintro ⟨hx, hall⟩
        exact ⟨⟨hx, hall t (Or.inl rfl)⟩, fun s hs => hall s (Or.inr hs)⟩

theorem interAll_mem (sets : List (List Value)) (r : List Value)
    (h : interAll sets = .ok r) (x : Value) : x ∈ r ↔ ∀ s ∈ sets, x ∈ s := by
  cases sets with
  | nil => simp [interAll] at h
  | cons s0 rest =>
      simp only [interAll, Except.ok.injEq] at h
      subst h
      rw [mem_foldl_filter]
      simp only [List.mem_cons]
      constructor
      · rintro ⟨hx, hrest⟩ s (rfl | hs)
        · exact hx
        · exact hrest s hs
      · intro hall
        exact ⟨hall s0 (Or.inl rfl), fun s hs => hall s (Or.inr hs)⟩

theorem interAll_ok_of_ne_nil (sets : List (List Value)) (h : sets ≠ []) :
    ∃ r, interAll sets = .ok r := by
  cases sets with
  | nil => exact absurd rfl h
  | cons s0 rest => exact ⟨_, rfl⟩

/-! ### Loop lemmas -/

theorem checksLoop_cons (env : Env) (e : Value) (rest : List Value)
    (props : PyDict CheckInstance) (sets : List (List Value)) :
    checksLoop env (e :: rest) props sets =
      match processCheck env e with
      | .error er => .error er
      | .ok (m, i, d) => checksLoop env rest (updateOne props m i) (sets ++ [d]) := rfl

theorem checksLoop_sets_len (env : Env) (es : List Value) :
    ∀ props sets p s, checksLoop env es props sets = .ok (p, s) →
      s.length = sets.length + es.length := by
  induction es with
  | nil =>
      intro props sets p s h
      simp only [checksLoop, Except.ok.injEq, Prod.mk.injEq] at h
      rw [← h.2]
      simp
  | cons e rest ih =>
      intro props sets p s h
      rw [checksLoop_cons] at h
      cases hp : processCheck env e with
      | error er => rw [hp] at h; exact absurd h (by simp)
      | ok out =>
          obtain ⟨m, i, d⟩ := out
          rw [hp] at h
          have := ih _ _ _ _ h
          simp only [List.length_append, List.length_cons, List.length_nil] at this ⊢
          omega

theorem checksLoop_all_ok (env : Env) (es : List Value) :
    ∀ props sets p s, checksLoop env es props sets = .ok (p, s) →
      ∀ e ∈ es, ∃ m i d, processCheck env e = .ok (m, i, d) := by
  induction es with
  | nil => intro _ _ _ _ _ e he; simp at he
  | cons e0 rest ih =>
      intro props sets p s h e he
      rw [checksLoop_cons] at h
      cases hp : processCheck env e0 with
      | error er => rw [hp] at h; exact absurd h (by simp)
      | ok out =>
          obtain ⟨m, i, d⟩ := out
          rw [hp] at h
          rcases List.mem_cons.mp he with rfl | hmem
          · exact ⟨m, i, d, hp⟩
          · exact ih _ _ _ _ h e hmem

theorem checksLoop_sets_mem (env : Env) (es : List Value) :
    ∀ props sets p s, checksLoop env es props sets = .ok (p, s) →
      ∀ x : Value, (∀ t ∈ s, x ∈ t) ↔
        ((∀ t ∈ sets, x ∈ t) ∧
          ∀ e ∈ es, ∀ m i d, processCheck env e = .ok (m, i, d) → x ∈ d) := by
  induction es with
  | nil =>
      intro props sets p s h x
      simp only [checksLoop, Except.ok.injEq, Prod.mk.injEq] at h
      rw [← h.2]
      simp
  | cons e0 rest ih =>
      intro props sets p s h x
      rw [checksLoop_cons] at h
      cases hp : processCheck env e0 with
      | error er => rw [hp] at h; exact absurd h (by simp)
      | ok out =>
          obtain ⟨m, i, d⟩ := out
          rw [hp] at h
          rw [ih _ _ _ _ h x]
          constructor
          · rintro ⟨hsets, hrest⟩
            have hd : x ∈ d := by
              have := hsets d (by simp)
              exact this
            refine ⟨fun t ht => hsets t (by simp [ht]), ?_⟩
            intro e he m' i' d' hp'
            rcases List.mem_cons.mp he with rfl | hmem
            · rw [hp] at hp'
              cases hp'
              exact hd
            · exact hrest e hmem m' i' d' hp'
          · rintro ⟨hsets, hall⟩
            constructor
            · intro t ht
              rcases List.mem_append.mp ht with hts | htd
              · exact hsets t hts
              · have htd2 : t = d := List.mem_singleton.mp htd
                rw [htd2]
                exact hall e0 (by simp) m i d hp
            · intro e he m' i' d' hp'
              exact hall e (by simp [he]) m' i' d' hp'

theorem checksLoop_lookup_preserved (env : Env) (es : List Value) :
    ∀ props sets p s, checksLoop env es props sets = .ok (p, s) →
      ∀ mname : String,
        (∀ e ∈ es, ∀ m i d, processCheck env e = .ok (m, i, d) → m ≠ mname) →
        lookupA p mname = lookupA props mname := by
  induction es with
  | nil =>
      intro props sets p s h mname _
      simp only [checksLoop, Except.ok.injEq, Prod.mk.injEq] at h
      rw [← h.1]
  | cons e0 rest ih =>
      intro props sets p s h mname hnone
      rw [checksLoop_cons] at h
      cases hp : processCheck env e0 with
      | error er => rw [hp] at h; exact absurd h (by simp)
      | ok out =>
          obtain ⟨m, i, d⟩ := out
          rw [hp] at h
          have hm : m ≠ mname := hnone e0 (by simp) m i d hp
          rw [ih _ _ _ _ h mname (fun e he => hnone e (by simp [he]))]
          exact lookupA_updateOne_ne props m mname i (fun hh => hm hh.symm)

theorem checksLoop_lookup_at (env : Env) (es : List Value) :
    ∀ props sets p s, checksLoop env es props sets = .ok (p, s) →
      ∀ (k : Nat) (hk : k < es.length) (m : String) (i : CheckInstance) (d : List Value),
        processCheck env es[k] = .ok (m, i, d) →
        (∀ (j : Nat) (hj : j < es.length), k < j →
          ∀ m' i' d', processCheck env es[j] = .ok (m', i', d') → m' ≠ m) →
        lookupA p m = some i := by
  induction es with
  | nil =>
      intro _ _ _ _ _ k hk
      exact absurd hk (by simp)
  | cons e0 rest ih =>
      intro props sets p s h k hk m i d hpk hlater
      rw [checksLoop_cons] at h
      cases hp : processCheck env e0 with
      | error er => rw [hp] at h; exact absurd h (by simp)
      | ok out =>
          obtain ⟨m0, i0, d0⟩ := out
          rw [hp] at h
          cases k with
          | zero =>
              have he0 : (e0 :: rest)[0] = e0 := rfl
              rw [he0, hp] at hpk
              have heq := Except.ok.inj hpk
              have hm : m0 = m := congrArg Prod.fst heq
              have hi : i0 = i := congrArg (fun z => z.2.1) heq
              have hpres := checksLoop_lookup_preserved env rest _ _ _ _ h m ?_
              · rw [hpres, hm, lookupA_updateOne_self, hi]
              · intro e he m' i' d' hp'
                obtain ⟨j, hj, rfl⟩ := List.mem_iff_getElem.mp he
                have hj1 : j + 1 < (e0 :: rest).length := by simpa using Nat.succ_lt_succ hj
                have := hlater (j + 1) hj1 (Nat.succ_pos j) m' i' d'
                rw [List.getElem_cons_succ] at this
                exact this hp'
          | succ k2 =>
              have hk2 : k2 < rest.length := by simpa using Nat.lt_of_succ_lt_succ hk
              apply ih _ _ _ _ h k2 hk2 m i d
              · have hcast : (e0 :: rest)[k2 + 1] = rest[k2] :=
                  List.getElem_cons_succ e0 rest k2 hk
                rw [← hcast]
                exact hpk
              · intro j hj hkj m' i' d' hp'
                have hj1 : j + 1 < (e0 :: rest).length := by simpa using Nat.succ_lt_succ hj
                have := hlater (j + 1) hj1 (Nat.succ_lt_succ hkj) m' i' d'
                rw [List.getElem_cons_succ] at this
                exact this hp'

end YamlParser



namespace YamlParser

theorem validateCheckEntry_ok_of_WF (e : Value) (h : EntryWF e) :
    validateCheckEntry e = .ok () := by
  obtain ⟨l, rfl, ⟨sid, hid⟩, ⟨pp, hpp⟩, ⟨sn, hn⟩, hlev⟩ := h
  have h1 : validate_field "check_id" .str (.dict l) true = .ok () := by
    rw [validate_field_some _ _ _ _ _ hid]; simp [isinstance]
  have h2 : validate_field "parameters" .dict (.dict l) true = .ok () := by
    rw [validate_field_some _ _ _ _ _ hpp]; simp [isinstance]
  have h3 : validate_field "check_name" .str (.dict l) true = .ok () := by
    rw [validate_field_some _ _ _ _ _ hn]; simp [isinstance]
  unfold validateCheckEntry
  rw [h1, h2, h3]
  cases hl : lookupA l "check_level" with
  | none =>
      rw [validate_field_missing_opt _ _ _ hl]
      simp [pyContainsS, containsA, hl]
  | some v =>
      have h4 : validate_field "check_level" .str (.dict l) false = .ok () := by
        rcases hlev v hl with rfl | rfl | rfl <;>
          (rw [validate_field_some _ _ _ _ _ hl]; simp [isinstance])
      rw [h4]
      simp only [pyContainsS, containsA, hl, Option.isSome_some, if_true, getItemS]
      rcases hlev v hl with rfl | rfl | rfl <;> simp

theorem validateEntries_ok_of_WF (entries : List Value)
    (h : ∀ e ∈ entries, EntryWF e) : validateEntries entries = .ok () := by
  induction entries with
  | nil => rfl
  | cons e rest ih =>
      unfold validateEntries
      rw [validateCheckEntry_ok_of_WF e (h e (by simp))]
      exact ih (fun e' he' => h e' (by simp [he']))

/-- C3 (amended): validation fails for every configuration missing
`suite_name` or `checks` or whose `checks` sequence is empty; and validation
succeeds for every configuration in which both required top-level fields are
present with the correct types, the `checks` sequence is non-empty, **and
every check entry carries the required per-entry fields with the declared
types (with `check_level`, when present, a valid level)** — the emphasised
per-entry condition is what the original claim omitted and what the
counterexample forces. -/
theorem validation_shape_amended :
    (∀ d : PyDict Value,
      (lookupA d "suite_name" = none ∨ lookupA d "checks" = none ∨
        lookupA d "checks" = some (.list [])) →
      ∃ er, validate_config (.dict d) = .error er) ∧
    (∀ (d : PyDict Value) (name : String) (entries : List Value),
      lookupA d "suite_name" = some (.str name) →
      lookupA d "checks" = some (.list entries) →
      entries ≠ [] →
      (∀ e ∈ entries, EntryWF e) →
      validate_config (.dict d) = .ok ()) := by
  constructor
  · intro d hdis
    unfold validate_config
    cases hc : lookupA d "checks" with
    | none => rw [validate_field_missing _ _ _ hc]; exact ⟨_, rfl⟩
    | some cv =>
        rw [validate_field_some _ _ _ _ _ hc]
        by_cases hicv : isinstance cv .list
        · rw [if_pos hicv]
          cases hs : lookupA d "suite_name" with
          | none => rw [validate_field_missing _ _ _ hs]; exact ⟨_, rfl⟩
          | some sv =>
              have hclnil : cv = .list [] := by
                rcases hdis with h1 | h2 | h3
                · rw [h1] at hs; cases hs
                · rw [h2] at hc; cases hc
                · rw [h3] at hc; exact (Option.some.inj hc).symm
              subst hclnil
              rw [validate_field_some _ _ _ _ _ hs]
              by_cases hisv : isinstance sv .str
              · rw [if_pos hisv]
                simp only [getItemS, hc]
                exact ⟨_, rfl⟩
              · rw [if_neg hisv]; exact ⟨_, rfl⟩
        · rw [if_neg hicv]; exact ⟨_, rfl⟩
  · intro d name entries hs hc hne hwf
    unfold validate_config
    rw [validate_field_some _ _ _ _ _ hc]
    simp only [isinstance, if_true]
    rw [validate_field_some _ _ _ _ _ hs]
    simp only [isinstance, if_true]
    simp only [getItemS, hc]
    rw [validateEntries_ok_of_WF entries hwf]
    simp [List.length_eq_zero, hne]

/-- C3 counterexample: the configuration
`{"suite_name": "hello", "checks": [{}]}` has both required top-level fields
present with the correct types and a non-empty `checks` sequence, yet
validation fails (the entry is missing `check_id`), refuting the claim's
success direction as stated. -/
theorem validation_success_claim_counterexample :
    (lookupA configEntryNoFields "suite_name" = some (.str "hello") ∧
     lookupA configEntryNoFields "checks" = some (.list [.dict []]) ∧
     ([Value.dict []] : List Value) ≠ []) ∧
    validate_config (.dict configEntryNoFields) =
      .error (.valueError ("Required key \x27check_id\x27 not present")) := by
  refine ⟨⟨rfl, rfl, by simp⟩, rfl⟩

/-- C3 witness: the amended theorem applied at the concrete configurations of
`test_missing_keys` (tests.py). -/
theorem validation_shape_amended_witness :
    (∃ er, validate_config (.dict [("suite_name", .str "hello")]) = .error er) ∧
    validate_config (.dict validConfigBlah) = .ok () := by
  constructor
  · exact validation_shape_amended.1 _ (Or.inr (Or.inl rfl))
  · apply validation_shape_amended.2 validConfigBlah "hello" [.dict validEntryBlah] rfl rfl
      (by simp)
    intro e he
    have he' : e = .dict validEntryBlah := List.mem_singleton.mp he
    subst he'
    exact ⟨validEntryBlah, rfl, ⟨"one", rfl⟩, ⟨[], rfl⟩, ⟨"blah", rfl⟩,
      fun v hv => by cases hv⟩

end YamlParser

namespace YamlParser

/-- C4 (amended): for a check entry in which every required field is present,
if some declared field (required, or the optional `check_level`) holds a value
of the wrong declared type, entry validation fails with the type-mismatch kind
(`TypeError`).  (The original claim did not require the other required fields
to be present; a missing one is reported first, as `ValueError` — see the
counterexample.) -/
theorem wrong_type_typeerror_amended :
    ∀ l : PyDict Value,
      containsA l "check_id" = true →
      containsA l "parameters" = true →
      containsA l "check_name" = true →
      ((∃ v, lookupA l "check_id" = some v ∧ isinstance v .str = false) ∨
       (∃ v, lookupA l "parameters" = some v ∧ isinstance v .dict = false) ∨
       (∃ v, lookupA l "check_name" = some v ∧ isinstance v .str = false) ∨
       (∃ v, lookupA l "check_level" = some v ∧ isinstance v .str = false)) →
      ∃ m, validateCheckEntry (.dict l) = .error (.typeError m) := by
  intro l h1 h2 h3 hdis
  obtain ⟨v1, hid⟩ : ∃ v, lookupA l "check_id" = some v :=
    Option.isSome_iff_exists.mp h1
  unfold validateCheckEntry
  cases hb1 : isinstance v1 .str with
  | false =>
      rw [validate_field_some _ _ _ _ _ hid]
      simp only [hb1, Bool.false_eq_true, if_false]
      exact ⟨_, rfl⟩
  | true =>
      rw [validate_field_some _ _ _ _ _ hid]
      simp only [hb1, if_true]
      obtain ⟨v2, hpp⟩ : ∃ v, lookupA l "parameters" = some v :=
        Option.isSome_iff_exists.mp h2
      cases hb2 : isinstance v2 .dict with
      | false =>
          rw [validate_field_some _ _ _ _ _ hpp]
          simp only [hb2, Bool.false_eq_true, if_false]
          exact ⟨_, rfl⟩
      | true =>
          rw [validate_field_some _ _ _ _ _ hpp]
          simp only [hb2, if_true]
          obtain ⟨v3, hn⟩ : ∃ v, lookupA l "check_name" = some v :=
            Option.isSome_iff_exists.mp h3
          cases hb3 : isinstance v3 .str with
          | false =>
              rw [validate_field_some _ _ _ _ _ hn]
              simp only [hb3, Bool.false_eq_true, if_false]
              exact ⟨_, rfl⟩
          | true =>
              rw [validate_field_some _ _ _ _ _ hn]
              simp only [hb3, if_true]
              obtain ⟨v4, hl4, hb4⟩ :
                  ∃ v, lookupA l "check_level" = some v ∧ isinstance v .str = false := by
                rcases hdis with ⟨v, hv, hb⟩ | ⟨v, hv, hb⟩ | ⟨v, hv, hb⟩ | h4
                · rw [hv] at hid; cases hid; rw [hb1] at hb; cases hb
                · rw [hv] at hpp; cases hpp; rw [hb2] at hb; cases hb
                · rw [hv] at hn; cases hn; rw [hb3] at hb; cases hb
                · exact h4
              rw [validate_field_some _ _ _ _ _ hl4]
              simp only [hb4, Bool.false_eq_true, if_false]
              exact ⟨_, rfl⟩

/-- C4 counterexample: the entry `{"parameters": 0}` contains a required field
(`parameters`) whose value has the wrong declared type, yet entry validation
fails with the missing-field kind (`ValueError`, for the absent `check_id`),
not `TypeError`, refuting the claim's universal quantification. -/
theorem wrong_type_claim_counterexample :
    (lookupA entryWrongParamNoId "parameters" = some (.int 0) ∧
     isinstance (.int 0) .dict = false) ∧
    validateCheckEntry (.dict entryWrongParamNoId) =
      .error (.valueError "Required key \x27check_id\x27 not present") ∧
    ∀ m, validateCheckEntry (.dict entryWrongParamNoId) ≠ .error (.typeError m) := by
  refine ⟨⟨rfl, rfl⟩, rfl, ?_⟩
  intro m hcontra
  have heq : Err.valueError "Required key \x27check_id\x27 not present" = .typeError m :=
    Except.error.inj ((rfl :
      validateCheckEntry (.dict entryWrongParamNoId) =
        .error (.valueError "Required key \x27check_id\x27 not present")).symm.trans hcontra)
  cases heq

/-- C4 witness: the amended theorem applied to the `test_invalid_types` entry
whose `check_id` is a mapping instead of text. -/
theorem wrong_type_typeerror_amended_witness :
    ∃ m, validateCheckEntry (.dict [("check_id", .dict []), ("parameters", .dict []),
      ("check_name", .str "blah")]) = .error (.typeError m) := by
  apply wrong_type_typeerror_amended
    [("check_id", Value.dict []), ("parameters", Value.dict []), ("check_name", Value.str "blah")]
    rfl rfl rfl
  exact Or.inl ⟨.dict [], rfl, rfl⟩

/-- C6 (amended): for a check entry whose required fields are present with the
declared types, a present text `check_level` outside {HIGH, MEDIUM, LOW} makes
entry validation fail with the value-problem kind (`ValueError`, the same kind
as missing fields), and an absent `check_level` causes no such failure.  (The
original claim did not require the other fields to be well-typed; a
wrong-typed field is reported first, as `TypeError` — see the
counterexample.) -/
theorem check_level_enum_amended :
    ∀ (l : PyDict Value) (sid : String) (pp : PyDict Value) (sn : String),
      lookupA l "check_id" = some (.str sid) →
      lookupA l "parameters" = some (.dict pp) →
      lookupA l "check_name" = some (.str sn) →
      ((∀ s, lookupA l "check_level" = some (.str s) →
          s ≠ "HIGH" → s ≠ "MEDIUM" → s ≠ "LOW" →
          validateCheckEntry (.dict l) =
            .error (.valueError "Check level must be one of HIGH, MEDIUM, LOW")) ∧
       (lookupA l "check_level" = none → validateCheckEntry (.dict l) = .ok ())) := by
  intro l sid pp sn hid hpp hn
  have h1 : validate_field "check_id" .str (.dict l) true = .ok () := by
    rw [validate_field_some _ _ _ _ _ hid]; simp [isinstance]
  have h2 : validate_field "parameters" .dict (.dict l) true = .ok () := by
    rw [validate_field_some _ _ _ _ _ hpp]; simp [isinstance]
  have h3 : validate_field "check_name" .str (.dict l) true = .ok () := by
    rw [validate_field_some _ _ _ _ _ hn]; simp [isinstance]
  constructor
  · intro s hlev hH hM hL
    unfold validateCheckEntry
    rw [h1, h2, h3]
    rw [validate_field_some _ _ _ _ _ hlev]
    simp only [isinstance, if_true]
    simp only [pyContainsS, containsA, hlev, Option.isSome_some, if_true, getItemS]
    rw [if_neg]
    rintro (hc | hc | hc)
    · cases hc; exact hH rfl
    · cases hc; exact hM rfl
    · cases hc; exact hL rfl
  · intro hnone
    unfold validateCheckEntry
    rw [h1, h2, h3, validate_field_missing_opt _ _ _ hnone]
    simp [pyContainsS, containsA, hnone]

/-- C6 counterexample: an entry whose `check_level` is the text "BANANA"
(outside the enumeration) but whose `check_id` is wrong-typed: validation
signals `TypeError`, not the claimed `ValueError`, refuting the claim's
universal quantification over entries. -/
theorem check_level_claim_counterexample :
    (lookupA entryBadLevelBadId "check_level" = some (.str "BANANA") ∧
     (Value.str "BANANA" ≠ .str "HIGH" ∧ Value.str "BANANA" ≠ .str "MEDIUM" ∧
      Value.str "BANANA" ≠ .str "LOW")) ∧
    validateCheckEntry (.dict entryBadLevelBadId) =
      .error (.typeError "Value for field \x27check_id\x27 is not of type \x27str\x27") ∧
    ∀ m, validateCheckEntry (.dict entryBadLevelBadId) ≠ .error (.valueError m) := by
  refine ⟨⟨rfl, by decide, by decide, by decide⟩, rfl, ?_⟩
  intro m hcontra
  have heq : Err.typeError "Value for field \x27check_id\x27 is not of type \x27str\x27" =
      .valueError m :=
    Except.error.inj ((rfl :
      validateCheckEntry (.dict entryBadLevelBadId) =
        .error (.typeError "Value for field \x27check_id\x27 is not of type \x27str\x27")).symm.trans hcontra)
  cases heq

/-- C6 witness: the amended theorem applied at concrete entries — a "BANANA"
level on an otherwise valid entry yields the enum `ValueError`, and the valid
entry without `check_level` validates. -/
theorem check_level_enum_amended_witness :
    validateCheckEntry (.dict (validEntryBlah ++ [("check_level", Value.str "BANANA")])) =
      .error (.valueError "Check level must be one of HIGH, MEDIUM, LOW") ∧
    validateCheckEntry (.dict validEntryBlah) = .ok () := by
  constructor
  · exact (check_level_enum_amended (validEntryBlah ++ [("check_level", Value.str "BANANA")])
      "one" [] "blah" rfl rfl rfl).1 "BANANA" rfl (by decide) (by decide) (by decide)
  · exact (check_level_enum_amended validEntryBlah "one" [] "blah" rfl rfl rfl).2 rfl

end YamlParser

namespace YamlParser

theorem pyContainsS_error_shape (v : Value) (k : String) (er : Err)
    (h : pyContainsS v k = .error er) : ∃ m, er = .typeError m := by
  cases v with
  | str s => simp [pyContainsS] at h
  | int n =>
      simp only [pyContainsS] at h
      exact ⟨_, (Except.error.inj h).symm⟩
  | list es => simp [pyContainsS] at h
  | dict d => simp [pyContainsS] at h

theorem getItemS_error_shape (v : Value) (k : String) (er : Err)
    (h : getItemS v k = .error er) : er = .keyError k ∨ ∃ m, er = .typeError m := by
  cases v with
  | str s =>
      simp only [getItemS] at h
      exact Or.inr ⟨_, (Except.error.inj h).symm⟩
  | int n =>
      simp only [getItemS] at h
      exact Or.inr ⟨_, (Except.error.inj h).symm⟩
  | list es =>
      simp only [getItemS] at h
      exact Or.inr ⟨_, (Except.error.inj h).symm⟩
  | dict d =>
      simp only [getItemS] at h
      cases hl : lookupA d k with
      | none => rw [hl] at h; exact Or.inl (Except.error.inj h).symm
      | some x => rw [hl] at h; cases h

theorem validate_field_error_shape (key : String) (ty : PyType) (d : Value)
    (req : Bool) (er : Err) (h : validate_field key ty d req = .error er) :
    er = .valueError ("Required key \x27" ++ key ++ "\x27 not present") ∨
      ∃ m, er = .typeError m := by
  cases d with
  | int n =>
      have hi : validate_field key ty (.int n) req =
          .error (.typeError "argument of type 'int' is not iterable") := rfl
      rw [hi] at h
      exact Or.inr ⟨_, (Except.error.inj h).symm⟩
  | str s =>
      by_cases hsub : strHasSub key.data s.data = true
      · have hs : validate_field key ty (.str s) req =
            .error (.typeError "string indices must be integers") := by
          unfold validate_field
          simp [pyContainsS, hsub, getItemS]
        rw [hs] at h
        exact Or.inr ⟨_, (Except.error.inj h).symm⟩
      · cases req with
        | true =>
            have hs : validate_field key ty (.str s) true =
                .error (.valueError ("Required key \x27" ++ key ++ "\x27 not present")) := by
              unfold validate_field
              simp [pyContainsS, hsub]
            rw [hs] at h
            exact Or.inl (Except.error.inj h).symm
        | false =>
            have hs : validate_field key ty (.str s) false = .ok () := by
              unfold validate_field
              simp [pyContainsS, hsub]
            rw [hs] at h
            cases h
  | list es =>
      by_cases hsub : Value.str key ∈ es
      · have hs : validate_field key ty (.list es) req =
            .error (.typeError "list indices must be integers") := by
          unfold validate_field
          simp [pyContainsS, hsub, getItemS]
        rw [hs] at h
        exact Or.inr ⟨_, (Except.error.inj h).symm⟩
      · cases req with
        | true =>
            have hs : validate_field key ty (.list es) true =
                .error (.valueError ("Required key \x27" ++ key ++ "\x27 not present")) := by
              unfold validate_field
              simp [pyContainsS, hsub]
            rw [hs] at h
            exact Or.inl (Except.error.inj h).symm
        | false =>
            have hs : validate_field key ty (.list es) false = .ok () := by
              unfold validate_field
              simp [pyContainsS, hsub]
            rw [hs] at h
            cases h
  | dict l =>
      cases hl : lookupA l key with
      | none =>
          cases req with
          | true =>
              rw [validate_field_missing _ _ _ hl] at h
              exact Or.inl (Except.error.inj h).symm
          | false =>
              rw [validate_field_missing_opt _ _ _ hl] at h
              cases h
      | some v =>
          rw [validate_field_some _ _ _ _ _ hl] at h
          by_cases hty : isinstance v ty = true
          · rw [if_pos hty] at h
            cases h
          · rw [if_neg hty] at h
            exact Or.inr ⟨_, (Except.error.inj h).symm⟩

theorem validateCheckEntry_ne_empty_msg (e : Value) :
    validateCheckEntry e ≠ .error (.valueError "List of checks cannot be empty") := by
  intro h
  unfold validateCheckEntry at h
  cases h1 : validate_field "check_id" .str e true with
  | error er =>
      rw [h1] at h
      have her := Except.error.inj h
      rcases validate_field_error_shape _ _ _ _ _ h1 with rfl | ⟨m, rfl⟩
      · exact absurd her (by decide)
      · cases her
  | ok u =>
      cases u
      rw [h1] at h
      cases h2 : validate_field "parameters" .dict e true with
      | error er =>
          rw [h2] at h
          have her := Except.error.inj h
          rcases validate_field_error_shape _ _ _ _ _ h2 with rfl | ⟨m, rfl⟩
          · exact absurd her (by decide)
          · cases her
      | ok u =>
          cases u
          rw [h2] at h
          cases h3 : validate_field "check_name" .str e true with
          | error er =>
              rw [h3] at h
              have her := Except.error.inj h
              rcases validate_field_error_shape _ _ _ _ _ h3 with rfl | ⟨m, rfl⟩
              · exact absurd her (by decide)
              · cases her
          | ok u =>
              cases u
              rw [h3] at h
              cases h4 : validate_field "check_level" .str e false with
              | error er =>
                  rw [h4] at h
                  have her := Except.error.inj h
                  rcases validate_field_error_shape _ _ _ _ _ h4 with rfl | ⟨m, rfl⟩
                  · exact absurd her (by decide)
                  · cases her
              | ok u =>
                  cases u
                  rw [h4] at h
                  cases hpc : pyContainsS e "check_level" with
                  | error er =>
                      rw [hpc] at h
                      obtain ⟨m, rfl⟩ := pyContainsS_error_shape _ _ _ hpc
                      cases Except.error.inj h
                  | ok present =>
                      rw [hpc] at h
                      cases present with
                      | false => simp at h
                      | true =>
                          simp only [if_true] at h
                          split at h
                          next e0 heq =>
                            rcases getItemS_error_shape _ _ _ heq with rfl | ⟨m, rfl⟩
                            · cases Except.error.inj h
                            · cases Except.error.inj h
                          next lv heq =>
                            split at h
                            · cases h
                            · exact absurd (Except.error.inj h) (by decide)

theorem validateEntries_ne_empty_msg (entries : List Value) :
    validateEntries entries ≠ .error (.valueError "List of checks cannot be empty") := by
  induction entries with
  | nil => intro h; cases h
  | cons e rest ih =>
      intro h
      unfold validateEntries at h
      cases hce : validateCheckEntry e with
      | error er =>
          rw [hce] at h
          have := Except.error.inj h
          subst this
          exact validateCheckEntry_ne_empty_msg e hce
      | ok u => cases u; rw [hce] at h; exact ih h

/-- C7: field-presence/type checks run before the empty-list check.  First
conjunct: a configuration with an empty `checks` sequence and a missing or
wrong-typed `suite_name` fails with the `suite_name` field error, not
`EmptyCheckList`.  Second conjunct: the `EmptyCheckList` error is raised only
when the top-level field checks pass (both fields present, `checks` a
sequence, `suite_name` text) and `checks` is empty. -/
theorem field_checks_before_empty_check :
    (∀ d : PyDict Value,
      lookupA d "checks" = some (.list []) →
      (lookupA d "suite_name" = none ∨
        (∃ v, lookupA d "suite_name" = some v ∧ isinstance v .str = false)) →
      ∃ er, validate_config (.dict d) = .error er ∧
        er ≠ .valueError "List of checks cannot be empty" ∧
        (er = .valueError "Required key \x27suite_name\x27 not present" ∨
         er = .typeError "Value for field \x27suite_name\x27 is not of type \x27str\x27")) ∧
    (∀ d : PyDict Value,
      validate_config (.dict d) = .error (.valueError "List of checks cannot be empty") →
      lookupA d "checks" = some (.list []) ∧
      ∃ name, lookupA d "suite_name" = some (.str name)) := by
  constructor
  · intro d hc hbad
    unfold validate_config
    rw [validate_field_some _ _ _ _ _ hc]
    simp only [isinstance, if_true]
    rcases hbad with hnone | ⟨v, hv, hbv⟩
    · rw [validate_field_missing _ _ _ hnone]
      exact ⟨_, rfl, by decide, Or.inl (by decide)⟩
    · rw [validate_field_some _ _ _ _ _ hv]
      simp only [hbv, Bool.false_eq_true, if_false]
      cases v with
      | str s => simp [isinstance] at hbv
      | int n => exact ⟨_, rfl, by decide, Or.inr (by decide)⟩
      | list es => exact ⟨_, rfl, by decide, Or.inr (by decide)⟩
      | dict l => exact ⟨_, rfl, by decide, Or.inr (by decide)⟩
  · intro d h
    unfold validate_config at h
    cases hc : lookupA d "checks" with
    | none =>
        rw [validate_field_missing _ _ _ hc] at h
        exact absurd (Except.error.inj h) (by decide)
    | some cv =>
        rw [validate_field_some _ _ _ _ _ hc] at h
        cases hbc : isinstance cv .list with
        | false =>
            rw [hbc] at h
            simp only [Bool.false_eq_true, if_false] at h
            cases Except.error.inj h
        | true =>
            rw [hbc] at h
            simp only [if_true] at h
            cases cv with
            | str s => simp [isinstance] at hbc
            | int n => simp [isinstance] at hbc
            | dict l => simp [isinstance] at hbc
            | list es =>
                cases hs : lookupA d "suite_name" with
                | none =>
                    rw [validate_field_missing _ _ _ hs] at h
                    exact absurd (Except.error.inj h) (by decide)
                | some sv =>
                    rw [validate_field_some _ _ _ _ _ hs] at h
                    cases hbs : isinstance sv .str with
                    | false =>
                        rw [hbs] at h
                        simp only [Bool.false_eq_true, if_false] at h
                        cases Except.error.inj h
                    | true =>
                        rw [hbs] at h
                        simp only [if_true] at h
                        simp only [getItemS, hc] at h
                        cases hve : validateEntries es with
                        | error er =>
                            rw [hve] at h
                            have := Except.error.inj h
                            subst this
                            exact absurd hve (validateEntries_ne_empty_msg es)
                        | ok u =>
                            cases u
                            rw [hve] at h
                            by_cases hlen : es.length = 0
                            · have : es = [] := List.length_eq_zero.mp hlen
                              subst this
                              cases sv with
                              | str s => exact ⟨rfl, s, rfl⟩
                              | int n => simp [isinstance] at hbs
                              | list l2 => simp [isinstance] at hbs
                              | dict l2 => simp [isinstance] at hbs
                            · rw [if_neg hlen] at h; cases h

/-- C7 witness: the theorem applied at `{"checks": []}` (missing `suite_name`,
empty `checks`) and at `{"suite_name": "test", "checks": []}`. -/
theorem field_checks_before_empty_check_witness :
    (∃ er, validate_config (.dict [("checks", Value.list [])]) = .error er ∧
      er ≠ .valueError "List of checks cannot be empty" ∧
      (er = .valueError "Required key \x27suite_name\x27 not present" ∨
       er = .typeError "Value for field \x27suite_name\x27 is not of type \x27str\x27")) ∧
    (lookupA [("suite_name", Value.str "test"), ("checks", Value.list [])]
        "checks" = some (.list []) ∧
      ∃ name, lookupA [("suite_name", Value.str "test"), ("checks", Value.list [])]
        "suite_name" = some (.str name)) := by
  constructor
  · exact field_checks_before_empty_check.1 [("checks", Value.list [])] rfl (Or.inl rfl)
  · exact field_checks_before_empty_check.2
      [("suite_name", Value.str "test"), ("checks", Value.list [])] rfl

end YamlParser

namespace YamlParser

theorem validate_config_ok_entries_ne_nil (cfg : Value) (entries : List Value)
    (hv : validate_config cfg = .ok ())
    (hc : getItemS cfg "checks" = .ok (.list entries)) : entries ≠ [] := by
  intro hnil
  subst hnil
  unfold validate_config at hv
  cases h1 : validate_field "checks" .list cfg true with
  | error e => rw [h1] at hv; cases hv
  | ok u =>
      cases u
      rw [h1] at hv
      cases h2 : validate_field "suite_name" .str cfg true with
      | error e => rw [h2] at hv; cases hv
      | ok u =>
          cases u
          rw [h2, hc] at hv
          exact Except.noConfusion hv

/-- C10: if `validate_config` succeeded, the `supported_ds_sets` list built by
the check-entry loop is non-empty when the intersection is computed, so the
unguarded `set.intersection(*supported_ds_sets)` always receives at least one
set and its zero-argument failure branch (`TypeError`) is unreachable. -/
theorem intersection_args_nonempty :
    ∀ (env : Env) (cfg : Value) (entries : List Value) (props : PyDict CheckInstance)
      (sets : List (List Value)),
      validate_config cfg = .ok () →
      getItemS cfg "checks" = .ok (.list entries) →
      checksLoop env entries [] [] = .ok (props, sets) →
      sets ≠ [] ∧ ∃ ds, interAll sets = .ok ds := by
  intro env cfg entries props sets hv hc hl
  have hne : entries ≠ [] := validate_config_ok_entries_ne_nil cfg entries hv hc
  have hlen := checksLoop_sets_len env entries [] [] props sets hl
  have hsne : sets ≠ [] := by
    intro hnil
    subst hnil
    simp only [List.length_nil] at hlen
    exact hne (List.length_eq_zero.mp (by omega))
  exact ⟨hsne, interAll_ok_of_ne_nil sets hsne⟩

/-- C10 witness: the theorem applied to the `test_supported_ds` configuration;
the loop collects the two dataset-type sets and the intersection succeeds. -/
theorem intersection_args_nonempty_witness :
    ([[Value.int 1, Value.int 2, Value.int 3],
      [Value.int 2, Value.int 3, Value.int 4]] : List (List Value)) ≠ [] ∧
    ∃ ds, interAll [[Value.int 1, Value.int 2, Value.int 3],
      [Value.int 2, Value.int 3, Value.int 4]] = .ok ds :=
  intersection_args_nonempty testsEnv cfgSupportedDs entriesSupportedDs
    propsSupportedDs _ rfl rfl rfl

end YamlParser

namespace YamlParser

theorem processCheck_ok_inv (env : Env) (e : Value) (m : String) (i : CheckInstance)
    (d : List Value) (h : processCheck env e = .ok (m, i, d)) :
    ∃ (idV : Value) (nameS : String) (pEntries : PyDict Value),
      getItemS e "check_id" = .ok idV ∧
      m = "check_" ++ pyStr idV ∧
      getItemS e "check_name" = .ok (.str nameS) ∧
      resolveCheck env nameS = .ok i.cls ∧
      getItemS e "parameters" = .ok (.dict pEntries) ∧
      i.kwargs = dictUpdate (dictUpdate [] i.cls.defaults) pEntries ∧
      pyGetOpt e "check_level" = .ok i.level ∧
      d = pySet i.cls.supported_ds := by
  unfold processCheck at h
  split at h
  next heq1 => exact Except.noConfusion h
  next idV heq1 =>
    split at h
    next heq2 => exact Except.noConfusion h
    next nameV heq2 =>
      split at h
      next nameS =>
        split at h
        next heq3 => exact Except.noConfusion h
        next check_cls heq3 =>
          split at h
          next heq4 => exact Except.noConfusion h
          next pv heq4 =>
            split at h
            next pEntries =>
              cases hrp : check_cls.required_parameters with
              | some reqs =>
                  rw [hrp] at h
                  have h2 : (match (match validateRequiredParams reqs
                        (dictUpdate (dictUpdate [] check_cls.defaults) pEntries) with
                      | Except.error ex => Except.error (rewrapParamErr ex)
                      | Except.ok _ => Except.ok ()) with
                    | Except.error e => Except.error e
                    | Except.ok _ =>
                        match pyGetOpt e "check_level" with
                        | Except.error e => Except.error e
                        | Except.ok level =>
                            Except.ok ("check_" ++ pyStr idV,
                              (⟨check_cls,
                                dictUpdate (dictUpdate [] check_cls.defaults) pEntries,
                                level⟩ : CheckInstance),
                              pySet check_cls.supported_ds)) = Except.ok (m, i, d) := h
                  clear h
                  cases hvr : validateRequiredParams reqs
                      (dictUpdate (dictUpdate [] check_cls.defaults) pEntries) with
                  | error ex => rw [hvr] at h2; exact Except.noConfusion h2
                  | ok u =>
                      cases u
                      rw [hvr] at h2
                      cases hlv : pyGetOpt e "check_level" with
                      | error er => rw [hlv] at h2; exact Except.noConfusion h2
                      | ok level =>
                          rw [hlv] at h2
                          have hinj := Except.ok.inj h2
                          have hm := congrArg Prod.fst hinj
                          have hi := congrArg (fun z =>
                            (z : String × CheckInstance × List Value).2.1) hinj
                          have hd := congrArg (fun z =>
                            (z : String × CheckInstance × List Value).2.2) hinj
                          subst hi
                          exact ⟨idV, nameS, pEntries, heq1, hm.symm, heq2, heq3, heq4,
                            rfl, rfl, hd.symm⟩
              | none =>
                  rw [hrp] at h
                  have h2 : (match pyGetOpt e "check_level" with
                    | Except.error e => Except.error e
                    | Except.ok level =>
                        Except.ok ("check_" ++ pyStr idV,
                          (⟨check_cls,
                            dictUpdate (dictUpdate [] check_cls.defaults) pEntries,
                            level⟩ : CheckInstance),
                          pySet check_cls.supported_ds)) = Except.ok (m, i, d) := h
                  clear h
                  cases hlv : pyGetOpt e "check_level" with
                  | error er => rw [hlv] at h2; exact Except.noConfusion h2
                  | ok level =>
                      rw [hlv] at h2
                      have hinj := Except.ok.inj h2
                      have hm := congrArg Prod.fst hinj
                      have hi := congrArg (fun z =>
                        (z : String × CheckInstance × List Value).2.1) hinj
                      have hd := congrArg (fun z =>
                        (z : String × CheckInstance × List Value).2.2) hinj
                      subst hi
                      exact ⟨idV, nameS, pEntries, heq1, hm.symm, heq2, heq3, heq4,
                        rfl, rfl, hd.symm⟩
            next hne => exact Except.noConfusion h
      next hne => exact Except.noConfusion h

end YamlParser

namespace YamlParser

theorem get_checker_class_ok_inv (env : Env) (cfg : Value) (g : GeneratedClass)
    (entries : List Value) (hg : get_checker_class env cfg = .ok g)
    (hc : getItemS cfg "checks" = .ok (.list entries)) :
    ∃ props sets ds nameV,
      validate_config cfg = .ok () ∧
      checksLoop env entries [] [] = .ok (props, sets) ∧
      interAll sets = .ok ds ∧
      getItemS cfg "suite_name" = .ok nameV ∧
      g = ⟨pyStr nameV, props, ds⟩ := by
  unfold get_checker_class at hg
  cases hv : validate_config cfg with
  | error e => rw [hv] at hg; exact Except.noConfusion hg
  | ok u =>
      cases u
      rw [hv, hc] at hg
      have h2 : (match checksLoop env entries [] [] with
        | Except.error e => Except.error e
        | Except.ok (class_properties, supported_ds_sets) =>
            match interAll supported_ds_sets with
            | Except.error e => Except.error e
            | Except.ok supported_ds =>
                match getItemS cfg "suite_name" with
                | Except.error e => Except.error e
                | Except.ok nameV =>
                    Except.ok (⟨pyStr nameV, class_properties, supported_ds⟩ :
                      GeneratedClass)) = Except.ok g := hg
      clear hg
      cases hcl : checksLoop env entries [] [] with
      | error e => rw [hcl] at h2; exact Except.noConfusion h2
      | ok pr =>
          obtain ⟨props, sets⟩ := pr
          rw [hcl] at h2
          have h3 : (match interAll sets with
            | Except.error e => Except.error e
            | Except.ok supported_ds =>
                match getItemS cfg "suite_name" with
                | Except.error e => Except.error e
                | Except.ok nameV =>
                    Except.ok (⟨pyStr nameV, props, supported_ds⟩ :
                      GeneratedClass)) = Except.ok g := h2
          clear h2
          cases hia : interAll sets with
          | error e => rw [hia] at h3; exact Except.noConfusion h3
          | ok ds =>
              rw [hia] at h3
              cases hsn : getItemS cfg "suite_name" with
              | error e => rw [hsn] at h3; exact Except.noConfusion h3
              | ok nameV =>
                  rw [hsn] at h3
                  exact ⟨props, sets, ds, nameV, rfl, rfl, hia, rfl,
                    (Except.ok.inj h3).symm⟩

/-- C1: for every valid configuration, the generated checker type's
`supported_ds`, viewed as a set, is the intersection of the `supported_ds`
sets of all resolved check implementations: every check entry resolves, and a
dataset-type marker is in the generated `supported_ds` exactly when it is in
the `supported_ds` of the implementation resolved for every entry. -/
theorem supported_ds_is_intersection :
    ∀ (env : Env) (cfg : Value) (g : GeneratedClass) (entries : List Value),
      get_checker_class env cfg = .ok g →
      getItemS cfg "checks" = .ok (.list entries) →
      (∀ e ∈ entries, ∃ m i d, processCheck env e = .ok (m, i, d)) ∧
      (∀ x : Value, x ∈ g.supported_ds ↔
        ∀ e ∈ entries, ∀ (m : String) (i : CheckInstance) (d : List Value),
          processCheck env e = .ok (m, i, d) → x ∈ i.cls.supported_ds) := by
  intro env cfg g entries hg hc
  obtain ⟨props, sets, ds, nameV, hv, hcl, hia, hsn, hgeq⟩ :=
    get_checker_class_ok_inv env cfg g entries hg hc
  constructor
  · exact checksLoop_all_ok env entries [] [] props sets hcl
  · intro x
    have hgds : g.supported_ds = ds := by rw [hgeq]
    have hmem := interAll_mem sets ds hia x
    have hloop := checksLoop_sets_mem env entries [] [] props sets hcl x
    rw [hgds, hmem, hloop]
    constructor
    · rintro ⟨-, hall⟩ e he m i d hp
      obtain ⟨_, _, _, _, _, _, _, _, _, _, hdeq⟩ :=
        processCheck_ok_inv env e m i d hp
      have hx := hall e he m i d hp
      rw [hdeq] at hx
      exact (mem_pySet _ x).mp hx
    · intro hall
      refine ⟨by simp, ?_⟩
      intro e he m i d hp
      obtain ⟨_, _, _, _, _, _, _, _, _, _, hdeq⟩ :=
        processCheck_ok_inv env e m i d hp
      rw [hdeq]
      exact (mem_pySet _ x).mpr (hall e he m i d hp)

/-- C1 witness: the theorem applied to the `test_supported_ds` configuration
({1,2,3} ∩ {2,3,4}); the generated type's `supported_ds` is {2,3}, and with an
empty per-check set the generated `supported_ds` is empty. -/
theorem supported_ds_is_intersection_witness :
    ((Value.int 2) ∈ genSupportedDs.supported_ds ↔
      ∀ e ∈ entriesSupportedDs, ∀ (m : String) (i : CheckInstance) (d : List Value),
        processCheck testsEnv e = .ok (m, i, d) → (Value.int 2) ∈ i.cls.supported_ds) ∧
    genSupportedDs.supported_ds = [Value.int 2, Value.int 3] ∧
    genEmptyDs.supported_ds = [] :=
  ⟨(supported_ds_is_intersection testsEnv cfgSupportedDs genSupportedDs
      entriesSupportedDs rfl rfl).2 (Value.int 2),
   rfl, rfl⟩

/-- C2: each generated method `check_<check_id>` delegates to the check
instance resolved during its own entry's iteration: if entry `k` produced
method name `m` and instance `i`, and no later entry produces the same method
name, then the generated type binds `m` to exactly `i`, and invoking `m`
returns `i`'s own `do_check` applied to the dataset — even after all later
entries have been processed. -/
theorem generated_methods_bind_own_instance :
    ∀ (env : Env) (cfg : Value) (g : GeneratedClass) (entries : List Value),
      get_checker_class env cfg = .ok g →
      getItemS cfg "checks" = .ok (.list entries) →
      ∀ (k : Nat) (hk : k < entries.length) (m : String) (i : CheckInstance)
        (d : List Value),
        processCheck env entries[k] = .ok (m, i, d) →
        (∀ (j : Nat) (hj : j < entries.length), k < j →
          ∀ m' i' d', processCheck env entries[j] = .ok (m', i', d') → m' ≠ m) →
        lookupA g.methods m = some i ∧
        ∀ ds : Value, callMethod g m ds = some (i.cls.do_check i.kwargs i.level ds) := by
  intro env cfg g entries hg hc k hk m i d hpk hlater
  obtain ⟨props, sets, ds0, nameV, hv, hcl, hia, hsn, hgeq⟩ :=
    get_checker_class_ok_inv env cfg g entries hg hc
  have hgm : g.methods = props := by rw [hgeq]
  have hlook : lookupA props m = some i :=
    checksLoop_lookup_at env entries [] [] props sets hcl k hk m i d hpk hlater
  refine ⟨by rw [hgm]; exact hlook, ?_⟩
  intro dsv
  unfold callMethod
  rw [hgm, hlook]
  rfl

/-- C2 witness: the theorem applied to the two-entry `test_supported_ds`
configuration at entry 0 (`check_one`): the method is bound to the instance
resolved from `SupportDsTestCheckClass1` even though entry 1 was processed
afterwards. -/
theorem generated_methods_bind_own_instance_witness :
    lookupA genSupportedDs.methods "check_one" =
      some ⟨SupportDsTestCheckClass1, [], none⟩ ∧
    ∀ ds : Value, callMethod genSupportedDs "check_one" ds =
      some (SupportDsTestCheckClass1.do_check [] none ds) :=
  generated_methods_bind_own_instance testsEnv cfgSupportedDs genSupportedDs
    entriesSupportedDs rfl rfl 0 (by decide) "check_one"
    ⟨SupportDsTestCheckClass1, [], none⟩ [Value.int 1, Value.int 2, Value.int 3]
    rfl
    (by
      intro j hj h0j m' i' d' hp' hm'
      have hj2 : j < 2 := by simpa [entriesSupportedDs] using hj
      interval_cases j
      have hinj := Except.ok.inj hp'
      have hm2 : m' = "check_two" := (congrArg Prod.fst hinj).symm
      rw [hm2] at hm'
      exact absurd hm' (by decide))

/-- C5: the effective parameters passed to the implementation's constructor
are a copy of the implementation's `defaults` overwritten key-by-key by the
entry's `parameters`, entry values winning on key collision; in particular,
with `defaults = {"one": "hello"}` and an entry supplying no value for "one",
the merged parameters map "one" to "hello" and the generated method returns
"hello". -/
theorem default_params_merge :
    (∀ (defaults entry : PyDict Value) (k : String),
      WFDict defaults → WFDict entry →
      lookupA (dictUpdate (dictUpdate [] defaults) entry) k =
        (lookupA entry k).orElse (fun _ => lookupA defaults k)) ∧
    (∃ i, lookupA genDefaults.methods "check_one" = some i ∧
      i.cls = DefaultParamsTestCheckClass ∧
      lookupA i.kwargs "one" = some (.str "hello")) ∧
    callMethod genDefaults "check_one" (.str "dataset") = some (.ok (.str "hello")) := by
  refine ⟨fun defaults entry k hd he => lookupA_mergedParams defaults entry k hd he,
    ⟨⟨DefaultParamsTestCheckClass, [("one", Value.str "hello")], none⟩, rfl, rfl, rfl⟩,
    rfl⟩

/-- C5 witness: the merge law applied at `defaults = {"one": "hello"}` with an
entry supplying a different key — the default survives; and at a colliding
key — the entry value wins. -/
theorem default_params_merge_witness :
    (lookupA (dictUpdate (dictUpdate [] [("one", Value.str "hello")])
        [("two", Value.int 2)]) "one" =
      ((lookupA [("two", Value.int 2)] "one").orElse
        (fun _ => lookupA [("one", Value.str "hello")] "one"))) ∧
    (lookupA (dictUpdate (dictUpdate [] [("one", Value.str "hello")])
        [("one", Value.str "bye")]) "one" =
      ((lookupA [("one", Value.str "bye")] "one").orElse
        (fun _ => lookupA [("one", Value.str "hello")] "one"))) :=
  ⟨default_params_merge.1 [("one", Value.str "hello")] [("two", Value.int 2)] "one"
      (by simp [WFDict, keysA]) (by simp [WFDict, keysA]),
   default_params_merge.1 [("one", Value.str "hello")] [("one", Value.str "bye")] "one"
      (by simp [WFDict, keysA]) (by simp [WFDict, keysA])⟩

/-- C8: assembly is idempotent up to type identity — two calls of
`get_checker_class` on the same valid configuration yield generated types with
the same name, the same `supported_ds` (as a set), and the same generated
method names. -/
theorem assembly_idempotent :
    ∀ (env : Env) (cfg : Value) (g1 g2 : GeneratedClass),
      get_checker_class env cfg = .ok g1 →
      get_checker_class env cfg = .ok g2 →
      g1.name = g2.name ∧ (∀ x, x ∈ g1.supported_ds ↔ x ∈ g2.supported_ds) ∧
      keysA g1.methods = keysA g2.methods := by
  intro env cfg g1 g2 h1 h2
  have heq : g1 = g2 := Except.ok.inj (h1.symm.trans h2)
  subst heq
  exact ⟨rfl, fun x => Iff.rfl, rfl⟩

/-- C8 witness: the theorem applied to two calls on the `test_supported_ds`
configuration. -/
theorem assembly_idempotent_witness :
    genSupportedDs.name = genSupportedDs.name ∧
    (∀ x, x ∈ genSupportedDs.supported_ds ↔ x ∈ genSupportedDs.supported_ds) ∧
    keysA genSupportedDs.methods = keysA genSupportedDs.methods :=
  assembly_idempotent testsEnv cfgSupportedDs genSupportedDs genSupportedDs rfl rfl

end YamlParser

namespace PyHeap

open YamlParser

theorem heapExt_self (h : Heap) : HeapExt h h :=
  ⟨le_refl _, fun _ _ => rfl⟩

theorem heapExt_alloc (h0 h : Heap) (o : Obj) (he : HeapExt h0 h) :
    HeapExt h0 (h ++ [o]) := by
  obtain ⟨hlen, hag⟩ := he
  refine ⟨by simp; omega, ?_⟩
  intro a ha
  have hah : a < h.length := lt_of_lt_of_le ha hlen
  rw [List.getElem?_append, if_pos hah]
  exact hag a ha

theorem heapExt_set (h0 h : Heap) (p : Nat) (o : Obj) (he : HeapExt h0 h)
    (hp : h0.length ≤ p) : HeapExt h0 (h.set p o) := by
  obtain ⟨hlen, hag⟩ := he
  refine ⟨by simp only [List.length_set]; exact hlen, ?_⟩
  intro a ha
  rw [List.getElem?_set_ne (by omega)]
  exact hag a ha

theorem heapExt_dictUpdateAt (h0 h : Heap) (a : Nat) (upd : PyDict HValue)
    (he : HeapExt h0 h) (ha : h0.length ≤ a) :
    HeapExt h0 (dictUpdateAt h a upd).2 := by
  unfold dictUpdateAt
  cases hobj : h[a]? with
  | none => exact he
  | some obj =>
      cases obj with
      | dict cur => exact heapExt_set h0 h a _ he ha
      | list es => exact he

theorem hread_frame {α : Type} (h0 h : Heap) (f : Heap → Except Err α)
    (he : HeapExt h0 h) : HeapExt h0 (hread f h).2 := he

theorem hbind_frame {α β : Type} (h0 : Heap) (x : Except Err α × Heap)
    (f : α → Heap → Except Err β × Heap) (hx : HeapExt h0 x.2)
    (hf : ∀ a h', HeapExt h0 h' → HeapExt h0 (f a h').2) :
    HeapExt h0 (hbind x f).2 := by
  obtain ⟨ex, hh⟩ := x
  cases ex with
  | error er => exact hx
  | ok a => exact hf a hh hx

theorem hbind_alloc_frame {β : Type} (h0 h : Heap)
    (f : Nat → Heap → Except Err β × Heap) (he : HeapExt h0 h)
    (hf : ∀ p h', h0.length ≤ p → HeapExt h0 h' → HeapExt h0 (f p h').2) :
    HeapExt h0 (hbind (hallocDict h) f).2 :=
  hf h.length (h ++ [Obj.dict []]) he.1 (heapExt_alloc h0 h _ he)

theorem buildParamsH_frame (h0 : Heap) (e : HValue) (cls : CheckClsH) (h : Heap)
    (he : HeapExt h0 h) : HeapExt h0 (buildParamsH e cls h).2 := by
  unfold buildParamsH
  apply hbind_alloc_frame h0 h _ he
  intro p h1 hp hh1
  apply hbind_frame h0 _ _ (heapExt_dictUpdateAt h0 h1 p cls.defaults hh1 hp)
  intro _ h2 hh2
  apply hbind_frame h0 _ _ (hread_frame h0 h2 _ hh2)
  intro pv h2a hh2a
  apply hbind_frame h0 _ _ (hread_frame h0 h2a _ hh2a)
  intro pEntries h2b hh2b
  apply hbind_frame h0 _ _ (heapExt_dictUpdateAt h0 h2b p pEntries hh2b hp)
  intro _ h3 hh3
  exact hh3

theorem processCheckH_frame (env : EnvH) (h0 h : Heap) (e : HValue)
    (he : HeapExt h0 h) : HeapExt h0 (processCheckH env h e).2 := by
  unfold processCheckH
  apply hbind_frame h0 _ _ (hread_frame h0 h _ he)
  intro idV h1 hh1
  apply hbind_frame h0 _ _ (hread_frame h0 h1 _ hh1)
  intro method_name h2 hh2
  apply hbind_frame h0 _ _ (hread_frame h0 h2 _ hh2)
  intro nameV h3 hh3
  apply hbind_frame h0 _ _ (hread_frame h0 h3 _ hh3)
  intro nameS h4 hh4
  apply hbind_frame h0 _ _ (hread_frame h0 h4 _ hh4)
  intro cls h5 hh5
  apply hbind_frame h0 _ _ (buildParamsH_frame h0 e cls h5 hh5)
  intro p h6 hh6
  apply hbind_frame h0 _ _ (hread_frame h0 h6 _ hh6)
  intro u h7 hh7
  apply hbind_frame h0 _ _ (hread_frame h0 h7 _ hh7)
  intro level h8 hh8
  exact hh8

theorem checksLoopH_frame (env : EnvH) (es : List HValue) :
    ∀ (h0 h : Heap) (props : PyDict InstanceH) (sets : List (List HValue)),
      HeapExt h0 h → HeapExt h0 (checksLoopH env h es props sets).2 := by
  induction es with
  | nil => intro h0 h props sets he; exact he
  | cons e rest ih =>
      intro h0 h props sets he
      unfold checksLoopH
      apply hbind_frame h0 _ _ (processCheckH_frame env h0 h e he)
      intro out h' hh'
      exact ih h0 h' _ _ hh'

/-- C9: neither validation nor assembly mutates the input.  In the heap model,
every heap object that exists when `get_checker_class` is called — the
configuration mapping, its check entries, their `parameters` mappings, and
anything else — is unchanged in the final heap, whether assembly succeeds or
fails; the only heap writes target the per-entry `params` mapping freshly
allocated by `params = {}` (line 47), at addresses beyond the input heap.
`validate_config` is heap-translated as a pure reader (`validateConfigH`) —
its source performs no assignment — and runs inside `getCheckerClassH`, so the
statement covers it: on a validation failure the call returns the input heap
itself. -/
theorem assembly_preserves_input_heap :
    ∀ (env : EnvH) (config : HValue) (h : Heap),
      HeapExt h (getCheckerClassH env h config).2 ∧
      (∀ er, validateConfigH h config = .error er →
        getCheckerClassH env h config = (.error er, h)) := by
  intro env config h
  constructor
  · unfold getCheckerClassH
    apply hbind_frame h _ _ (hread_frame h h _ (heapExt_self h))
    intro u h1 hh1
    apply hbind_frame h _ _ (hread_frame h h1 _ hh1)
    intro checksV h2 hh2
    apply hbind_frame h _ _ (hread_frame h h2 _ hh2)
    intro entries h3 hh3
    apply hbind_frame h _ _ (checksLoopH_frame env entries h h3 [] [] hh3)
    intro pr h4 hh4
    apply hbind_frame h _ _ (hread_frame h h4 _ hh4)
    intro supported_ds h5 hh5
    apply hbind_frame h _ _ (hread_frame h h5 _ hh5)
    intro nameV h6 hh6
    exact hh6
  · intro er hval
    unfold getCheckerClassH
    rw [show hread (fun h => validateConfigH h config) h =
      (validateConfigH h config, h) from rfl, hval]
    rfl

/-- C9 witness: the theorem applied at a concrete heap holding the
`test_default_parameters` configuration (all four input objects are intact in
the final heap — assembly only appended the fresh merged-parameters mapping)
and at a non-mapping configuration value (validation fails and the heap is
returned untouched). -/
theorem assembly_preserves_input_heap_witness :
    HeapExt heapDefaults (getCheckerClassH testsEnvH heapDefaults (.ref 0)).2 ∧
    (getCheckerClassH testsEnvH heapDefaults (.ref 0)).2 =
      heapDefaults ++ [Obj.dict [("one", .str "hello")]] ∧
    getCheckerClassH testsEnvH heapDefaults (.int 7) =
      (.error (.typeError "argument of type 'int' is not iterable"), heapDefaults) :=
  ⟨(assembly_preserves_input_heap testsEnvH (.ref 0) heapDefaults).1,
   rfl,
   (assembly_preserves_input_heap testsEnvH (.int 7) heapDefaults).2 _ rfl⟩

end PyHeap
